import Mathlib

/-!
# simple-http-server: the connection-handling pipeline of `httpServer.go`

A shallow embedding of `src/httpServer.go`.  Go strings and `[]byte` values are
sequences of bytes; the library calls the program makes (`fmt.Sprintf`,
`strings.Join`, `strings.Trim`, `strings.Split`, `regexp`) are modelled on the
fragment the program uses, and the handler is a function from the outcomes of
its I/O calls to the trace of the effects it performs.
-/

namespace HttpServer

/-! ## Bytes and strings -/

abbrev Byte := UInt8

/-- A Go `string` or `[]byte`: a finite sequence of bytes. -/
abbrev GoString := List Byte

/-- The bytes of an ASCII string literal of the source. -/
def ascii (s : String) : GoString := s.toList.map (fun c => c.toNat.toUInt8)

/-- Source constant `CRLF = "\r\n"`. -/
def CRLF : GoString := ascii "\r\n"

/-- Source constant `DefaultContentPreviewLength = 30`. -/
def DefaultContentPreviewLength : Nat := 30

/-! ## The `fmt` and `strings` calls of the program -/

/-- An operand of `fmt.Sprintf`: the program passes strings and one `int`. -/
inductive Arg where
  | str (s : GoString)
  | int (n : Int)

/-- Decimal digits of `n`, most significant first, pushed in front of `acc`. -/
def decimalDigits : Nat → Nat → GoString → GoString
  | 0, _, acc => acc
  | fuel + 1, n, acc =>
    if n / 10 = 0 then (48 + n % 10).toUInt8 :: acc
    else decimalDigits fuel (n / 10) ((48 + n % 10).toUInt8 :: acc)

/-- The verb `%d` applied to an integer: an optional `-` and the decimal digits. -/
def formatDecimal (n : Int) : GoString :=
  if n < 0 then 45 :: decimalDigits (n.natAbs + 1) n.natAbs []
  else decimalDigits (n.natAbs + 1) n.natAbs []

/-- The call `fmt.Sprintf(format, args...)` on the fragment the program uses: `%s` with
a string operand and `%d` with an integer operand are replaced by the operand, every
other byte of the format is copied.  (Byte 37 is `%`, 115 is `s`, 100 is `d`.) -/
def Sprintf : GoString → List Arg → GoString
  | [], _ => []
  | [c], _ => [c]
  | c :: v :: rest, args =>
    if c = 37 then
      match args with
      | Arg.str s :: args' =>
        if v = 115 then s ++ Sprintf rest args' else c :: Sprintf (v :: rest) args
      | Arg.int n :: args' =>
        if v = 100 then formatDecimal n ++ Sprintf rest args' else c :: Sprintf (v :: rest) args
      | [] => c :: Sprintf (v :: rest) args
    else c :: Sprintf (v :: rest) args

/-- The call `strings.Join(elems, sep)`. -/
def stringsJoin : List GoString → GoString → GoString
  | [], _ => []
  | [a], _ => a
  | a :: b :: rest, sep => a ++ sep ++ stringsJoin (b :: rest) sep

/-- The call `strings.Trim(s, cutset)` for an ASCII cutset: every leading and every
trailing byte that occurs in `cutset` is removed. -/
def stringsTrim (s cutset : GoString) : GoString :=
  ((s.dropWhile (fun b => cutset.contains b)).reverse.dropWhile
    (fun b => cutset.contains b)).reverse

/-- The call `strings.Split(s, sep)` for a one-byte separator: the pieces of `s` between
the occurrences of `sep`; there is always at least one piece. -/
def stringsSplit : GoString → Byte → List GoString
  | [], _ => [[]]
  | c :: rest, sep =>
    if c = sep then [] :: stringsSplit rest sep
    else
      match stringsSplit rest sep with
      | [] => [[c]]
      | piece :: pieces => (c :: piece) :: pieces

/-! ## Response construction -/

/-- The raw string literal of `buildHTML` (source lines 39 to 49). -/
def htmlTemplate : GoString :=
  ascii "\n\t<html>\n\t\t<head>\n\t\t\t<title>%s</title>\n\t\t</head>\n\t\t<body>\n\t\t\t<h1>%s</h1>\n\t\t\t%s\n\t\t</body>\n\t</html>\n\t"

/-- Source function `buildHTML(title, body string) []byte`. -/
def buildHTML (title body : GoString) : GoString :=
  let html := Sprintf htmlTemplate [Arg.str title, Arg.str title, Arg.str body]
  stringsTrim html (ascii "\n\t") ++ CRLF

/-- Source function `getContentType(filePath string) string`.  The result is `none`
when the index expression `extension[len(extension)-1]` is out of range. -/
def getContentType (filePath : GoString) : Option GoString :=
  let extension := stringsSplit filePath 46
  match extension.getLast? with
  | none => none
  | some ext =>
    if ext = ascii "htm" ∨ ext = ascii "html" then some (ascii "text/html")
    else if ext = ascii "ram" ∨ ext = ascii "ra" then some (ascii "audio/x-pn-realaudio")
    else if ext = ascii "jpg" ∨ ext = ascii "jpeg" then some (ascii "image/jpeg")
    else some (ascii "application/octet-stream")

/-- Source function `buildHTTPHeader(statusCode int, httpVersion, contentType string) []byte`. -/
def buildHTTPHeader (statusCode : Int) (httpVersion contentType : GoString) : GoString :=
  let status :=
    if statusCode = 200 then ascii "OK"
    else if statusCode = 404 then ascii "File Not Found"
    else if statusCode = 500 then ascii "Internal Server Error"
    else ascii "Status Code Not Implemented"
  let statusHeader :=
    Sprintf (ascii "HTTP/%s %d %s") [Arg.str httpVersion, Arg.int statusCode, Arg.str status]
  let contentTypeHeader := Sprintf (ascii "Content-Type: %s") [Arg.str contentType]
  let httpHeader := [statusHeader, contentTypeHeader]
  stringsJoin httpHeader CRLF ++ CRLF

/-! ## The request-line pattern and its matcher

Go's `regexp` returns the leftmost match and, among the matches starting there, the one
a backtracking search finds first.  The matcher below is that backtracking search for
the constructs the pattern of the program uses.  The pattern has ASCII atoms only, and
an ASCII byte is never part of a multi-byte rune, so matching bytes and matching runes
agree. -/

/-- The class `\w` of the pattern: `[0-9A-Za-z_]`. -/
def isWord (b : Byte) : Bool :=
  (48 ≤ b.toNat && b.toNat ≤ 57) || (65 ≤ b.toNat && b.toNat ≤ 90) || b.toNat = 95
    || (97 ≤ b.toNat && b.toNat ≤ 122)

/-- The class `\d` of the pattern: `[0-9]`. -/
def isDigit (b : Byte) : Bool := 48 ≤ b.toNat && b.toNat ≤ 57

/-- Regular expressions, on the constructs the request pattern uses. -/
inductive Re where
  | str (lit : GoString)
  | cls (p : Byte → Bool)
  | plus (p : Byte → Bool)
  | seq (r s : Re)
  | opt (r : Re)
  | group (i : Nat) (r : Re)

/-- The texts of the groups of one match, as in the `[]string` that the regexp call
returns: entry `i` is the text of group `i`, empty when the group took no part. -/
abbrev Submatch := Nat → GoString

/-- Match a literal at the front of the input; the rest of the input on success. -/
def matchLit : GoString → GoString → Option GoString
  | [], s => some s
  | _ :: _, [] => none
  | b :: bs, c :: cs => if b = c then matchLit bs cs else none

/-- Greedy `c+` for a class `c`: take one byte of the class, prefer taking more, and
fall back to continuing from here. -/
def matchPlus {α : Type} (p : Byte → Bool) : GoString → (GoString → Option α) → Option α
  | [], _ => none
  | b :: rest, k =>
    if p b then
      match matchPlus p rest k with
      | some v => some v
      | none => k rest
    else none

/-- Backtracking match of `r` at the front of the input `s`, with the groups recorded so
far in `c` and the continuation `k` for what follows `r`. -/
def Re.run {α : Type} : Re → GoString → Submatch → (GoString → Submatch → Option α) → Option α
  | Re.str lit, s, c, k =>
    match matchLit lit s with
    | some rest => k rest c
    | none => none
  | Re.cls p, s, c, k =>
    match s with
    | [] => none
    | b :: rest => if p b then k rest c else none
  | Re.plus p, s, c, k => matchPlus p s (fun rest => k rest c)
  | Re.seq r₁ r₂, s, c, k => r₁.run s c (fun s₁ c₁ => r₂.run s₁ c₁ k)
  | Re.opt r, s, c, k =>
    match r.run s c k with
    | some v => some v
    | none => k s c
  | Re.group i r, s, c, k =>
    r.run s c (fun s₁ c₁ => k s₁ (Function.update c₁ i (s.take (s.length - s₁.length))))

/-- A match of the whole expression (group 0) that starts at the front of `s`. -/
def matchAt (re : Re) (s : GoString) : Option Submatch :=
  (Re.group 0 re).run s (fun _ => []) (fun _ c => some c)

/-- The first element of `re.FindAllStringSubmatch(s, -1)`: the leftmost match, `none`
when the call returns `nil`. -/
def findSubmatch (re : Re) : GoString → Option Submatch
  | [] => matchAt re []
  | b :: rest =>
    match matchAt re (b :: rest) with
    | some m => some m
    | none => findSubmatch re rest

/-- The pattern of `handleConnection` (source line 108):
`GET /((?P<file_name>\w+)\.(?P<file_ext>\w+))? HTTP/(?P<http_version>\d\.\d)\r\n`. -/
def requestPattern : Re :=
  Re.seq (Re.str (ascii "GET /"))
    (Re.seq
      (Re.opt (Re.group 1
        (Re.seq (Re.group 2 (Re.plus isWord))
          (Re.seq (Re.str (ascii ".")) (Re.group 3 (Re.plus isWord))))))
      (Re.seq (Re.str (ascii " HTTP/"))
        (Re.seq
          (Re.group 4 (Re.seq (Re.cls isDigit) (Re.seq (Re.str (ascii ".")) (Re.cls isDigit))))
          (Re.str (ascii "\r\n")))))

/-! ## The connection handler -/

/-- The effects of `handleConnection` that the outside can observe, in order. -/
inductive Event where
  | parse (request : GoString)
  | readFile (filePath : GoString)
  | write (response : GoString)
  | close
  | fatal
  | panicked
  deriving DecidableEq

/-- The outcomes of the I/O calls of one connection: the line read by
`ReadString` (`none` on error), the result of `readFile` for each relative path
(`none` on error), and whether `c.Write` and `c.Close` report an error. -/
structure Env where
  readString : Option GoString
  readFile : GoString → Option GoString
  writeFails : Bool
  closeFails : Bool

/-- Source lines 164 to 168: close the connection; a close error is fatal. -/
def closeConnection (env : Env) : List Event :=
  if env.closeFails then [Event.close, Event.fatal] else [Event.close]

/-- Source lines 148 to 168.  A `nil` slice is `none`.  The preview of line 151
re-slices the body to `DefaultContentPreviewLength` bytes.  Go bounds that expression by
the capacity of the slice, which is at least its length; the model bounds it by the
length.  The two agree on every body the handler passes here, since each has 30 bytes or
more: the pages of `buildHTML` by `buildHTML_length`, the file content by the check of
line 140. -/
def respond (env : Env) (responseHeader responseBody : Option GoString) : List Event :=
  match responseHeader with
  | none => closeConnection env
  | some header =>
    match responseBody with
    | none =>
      Event.write (header ++ CRLF) ::
        (if env.writeFails then [Event.fatal] else closeConnection env)
    | some body =>
      if body.length < DefaultContentPreviewLength then [Event.panicked]
      else
        Event.write (header ++ CRLF ++ body) ::
          (if env.writeFails then [Event.fatal] else closeConnection env)

/-- Source function `handleConnection(c net.Conn)`, lines 89 to 169.  Every path through
the body of the `for` ends in `break`, so the body runs once.  Logging is left out but
for the slice expressions in its operands, which can go out of range. -/
def handleConnection (env : Env) : List Event :=
  match env.readString with
  | none => respond env none none
  | some request =>
    Event.parse request ::
    match findSubmatch requestPattern request with
    | none =>
      respond env (some (buildHTTPHeader 404 (ascii "1.1") (ascii "text/html")))
        (some (buildHTML (ascii "404 Not Found") (ascii "Page not found")))
    | some m =>
      let endpoint := m 1
      let filePath := if endpoint = [] then ascii "index.html" else endpoint
      let httpVersion := m 4
      Event.readFile filePath ::
      match env.readFile filePath with
      | none =>
        respond env (some (buildHTTPHeader 404 httpVersion (ascii "text/html")))
          (some (buildHTML (ascii "404 Not Found") (ascii "File not found")))
      | some content =>
        if content.length < DefaultContentPreviewLength then [Event.panicked]
        else
          match getContentType filePath with
          | none => [Event.panicked]
          | some contentType =>
            respond env (some (buildHTTPHeader 200 httpVersion contentType)) (some content)

/-- The byte strings passed to `c.Write`, in order. -/
def writes : List Event → List GoString
  | [] => []
  | Event.write r :: es => r :: writes es
  | _ :: es => writes es

/-- The relative paths passed to `readFile`, in order. -/
def fileReads : List Event → List GoString
  | [] => []
  | Event.readFile f :: es => f :: fileReads es
  | _ :: es => fileReads es

/-! ## Definitions used to state the properties -/

/-- A naive line-splitter: cut the input at every CRLF.  The result is the list of the
lines, each without its CRLF, and the bytes left over after the last CRLF. -/
def splitLines : GoString → List GoString × GoString
  | [] => ([], [])
  | [b] => ([], [b])
  | b :: c :: rest =>
    if b = 13 ∧ c = 10 then ([] :: (splitLines rest).1, (splitLines rest).2)
    else
      match splitLines (c :: rest) with
      | ([], left) => ([], b :: left)
      | (line :: lines, left) => ((b :: line) :: lines, left)

/-- The texts an expression matches, with the groups before and after: `r.Matches w c c'`
says that `r` matches exactly the text `w` and turns the recorded groups `c` into `c'`. -/
def Re.Matches : Re → GoString → Submatch → Submatch → Prop
  | Re.str lit, w, c, c' => w = lit ∧ c' = c
  | Re.cls p, w, c, c' => ∃ b, w = [b] ∧ p b = true ∧ c' = c
  | Re.plus p, w, c, c' => w ≠ [] ∧ (∀ b ∈ w, p b = true) ∧ c' = c
  | Re.seq r₁ r₂, w, c, c' =>
    ∃ w₁ w₂ c₁, w = w₁ ++ w₂ ∧ r₁.Matches w₁ c c₁ ∧ r₂.Matches w₂ c₁ c'
  | Re.opt r, w, c, c' => (w = [] ∧ c' = c) ∨ r.Matches w c c'
  | Re.group i r, w, c, c' => ∃ c₁, r.Matches w c c₁ ∧ c' = Function.update c₁ i w

/-- One or more word characters `[0-9A-Za-z_]`. -/
def IsWordString (w : GoString) : Prop := w ≠ [] ∧ ∀ b ∈ w, isWord b = true

/-- The shape `name.ext`: word characters, one dot, word characters. -/
def IsNameDotExt (t : GoString) : Prop :=
  ∃ name ext, t = name ++ 46 :: ext ∧ IsWordString name ∧ IsWordString ext

/-- The text `GET /` ++ t ++ ` HTTP/` ++ a ++ `.` ++ b ++ CRLF. -/
def requestLine (t : GoString) (a b : Byte) : GoString :=
  ascii "GET /" ++ t ++ ascii " HTTP/" ++ [a, 46, b] ++ CRLF

/-- What `ReadString('\n')` returns without an error: bytes up to and including the
first LF, so the only LF is the last byte. -/
def IsLine (s : GoString) : Prop := ∃ body, s = body ++ [10] ∧ (10 : Byte) ∉ body

instance (w : GoString) : Decidable (IsWordString w) := by
  unfold IsWordString; infer_instance

/-- The request lines on which the pattern is run, in order. -/
def parses : List Event → List GoString
  | [] => []
  | Event.parse r :: es => r :: parses es
  | _ :: es => parses es

/-- The relative path `handleConnection` resolves from a match (source lines 119 to 126):
group 1, or `index.html` when group 1 is empty. -/
def resolvedPath (m : Submatch) : GoString :=
  if m 1 = [] then ascii "index.html" else m 1

/-- The number that a string of decimal digits denotes, most significant digit first. -/
def decimalValue (ds : GoString) : Nat :=
  ds.foldl (fun acc b => 10 * acc + (b.toNat - 48)) 0

/-! ## Lemmas on the library calls and the response builders -/

theorem buildHTTPHeader_closed (statusCode : Int) (httpVersion contentType : GoString) :
    buildHTTPHeader statusCode httpVersion contentType
      = ascii "HTTP/" ++ httpVersion ++ ascii " " ++ formatDecimal statusCode ++ ascii " "
          ++ (if statusCode = 200 then ascii "OK"
              else if statusCode = 404 then ascii "File Not Found"
              else if statusCode = 500 then ascii "Internal Server Error"
              else ascii "Status Code Not Implemented")
          ++ CRLF ++ ascii "Content-Type: " ++ contentType ++ CRLF := by
  simp [buildHTTPHeader, Sprintf, stringsJoin, ascii, CRLF, Nat.toUInt8]

theorem buildHTML_closed (title message : GoString) :
    buildHTML title message
      = ascii "<html>\n\t\t<head>\n\t\t\t<title>" ++ title
          ++ ascii "</title>\n\t\t</head>\n\t\t<body>\n\t\t\t<h1>" ++ title
          ++ ascii "</h1>\n\t\t\t" ++ message ++ ascii "\n\t\t</body>\n\t</html>\r\n" := by
  simp [buildHTML, htmlTemplate, Sprintf, stringsTrim, ascii, CRLF, Nat.toUInt8]

theorem stringsSplit_ne_nil (s : GoString) (sep : Byte) : stringsSplit s sep ≠ [] := by
  induction s with
  | nil => simp [stringsSplit]
  | cons c rest ih =>
    unfold stringsSplit
    split
    · simp
    · split <;> simp

theorem stringsSplit_no_sep (e : GoString) (sep : Byte) (h : sep ∉ e) :
    stringsSplit e sep = [e] := by
  induction e with
  | nil => rfl
  | cons c rest ih =>
    have hc : c ≠ sep := fun hc => h (by simp [hc])
    have hr : sep ∉ rest := fun hr => h (by simp [hr])
    simp [stringsSplit, hc, ih hr]

theorem stringsSplit_append_sep (stem e : GoString) (sep : Byte) (h : sep ∉ e) :
    ∃ p ps, stringsSplit (stem ++ sep :: e) sep = p :: (ps ++ [e]) := by
  induction stem with
  | nil => exact ⟨[], [], by simp [stringsSplit, stringsSplit_no_sep e sep h]⟩
  | cons c rest ih =>
    obtain ⟨p, ps, hp⟩ := ih
    rw [List.cons_append, stringsSplit, hp]
    by_cases hc : c = sep
    · exact ⟨[], p :: ps, by simp [hc]⟩
    · exact ⟨c :: p, ps, by simp [hc]⟩

theorem stringsSplit_getLast (stem e : GoString) (sep : Byte) (h : sep ∉ e) :
    (stringsSplit (stem ++ sep :: e) sep).getLast? = some e := by
  obtain ⟨p, ps, hp⟩ := stringsSplit_append_sep stem e sep h
  rw [hp, ← List.cons_append, List.getLast?_append]
  simp

theorem exists_extension (s : GoString) (sep : Byte) :
    ∃ e, sep ∉ e ∧ (s = e ∨ ∃ stem, s = stem ++ sep :: e) := by
  induction s with
  | nil => exact ⟨[], by simp, Or.inl rfl⟩
  | cons c rest ih =>
    obtain ⟨e, he, h | ⟨stem, h⟩⟩ := ih
    · by_cases hc : c = sep
      · exact ⟨e, he, Or.inr ⟨[], by simp [hc, h]⟩⟩
      · refine ⟨c :: e, ?_, Or.inl (by rw [h])⟩
        simp [he, Ne.symm hc]
    · exact ⟨e, he, Or.inr ⟨c :: stem, by simp [h]⟩⟩

theorem getContentType_of_ext (filePath ext : GoString) (hdot : (46 : Byte) ∉ ext)
    (h : filePath = ext ∨ ∃ stem, filePath = stem ++ 46 :: ext) :
    getContentType filePath = some (
      if ext = ascii "htm" ∨ ext = ascii "html" then ascii "text/html"
      else if ext = ascii "ram" ∨ ext = ascii "ra" then ascii "audio/x-pn-realaudio"
      else if ext = ascii "jpg" ∨ ext = ascii "jpeg" then ascii "image/jpeg"
      else ascii "application/octet-stream") := by
  have hl : (stringsSplit filePath 46).getLast? = some ext := by
    rcases h with h | ⟨stem, h⟩
    · rw [h, stringsSplit_no_sep ext 46 hdot]; rfl
    · rw [h]; exact stringsSplit_getLast stem ext 46 hdot
  simp only [getContentType, hl]
  split_ifs <;> rfl

theorem splitLines_line (l rest : GoString) (h : (13 : Byte) ∉ l) :
    splitLines (l ++ 13 :: 10 :: rest) = (l :: (splitLines rest).1, (splitLines rest).2) := by
  induction l with
  | nil => simp [splitLines]
  | cons b l ih =>
    have hb : b ≠ 13 := fun hb => h (by simp [hb])
    have hl : (13 : Byte) ∉ l := fun hl => h (by simp [hl])
    have ih := ih hl
    cases l with
    | nil => 
      simp only [List.nil_append] at ih
      simp [splitLines, hb, ih]
    | cons c l =>
      simp only [List.cons_append] at ih ⊢
      simp [splitLines, hb, ih]

theorem decimalDigits_isDigit (fuel n : Nat) (acc : GoString) :
    ∀ b ∈ decimalDigits fuel n acc, b ∈ acc ∨ isDigit b = true := by
  induction fuel generalizing n acc with
  | zero => intro b hb; exact Or.inl hb
  | succ fuel ih =>
    have hd : isDigit (48 + n % 10).toUInt8 = true := by
      have : n % 10 < 10 := Nat.mod_lt _ (by decide)
      simp [isDigit, Nat.toUInt8, UInt8.toNat, UInt8.ofNat]
      omega
    intro b hb
    unfold decimalDigits at hb
    split at hb
    · rcases List.mem_cons.1 hb with h | h
      · exact Or.inr (h ▸ hd)
      · exact Or.inl h
    · rcases ih _ _ b hb with h | h
      · rcases List.mem_cons.1 h with h | h
        · exact Or.inr (h ▸ hd)
        · exact Or.inl h
      · exact Or.inr h

theorem formatDecimal_bytes (n : Int) :
    ∀ b ∈ formatDecimal n, b = 45 ∨ isDigit b = true := by
  intro b hb
  unfold formatDecimal at hb
  split at hb
  · rcases List.mem_cons.1 hb with h | h
    · exact Or.inl h
    · rcases decimalDigits_isDigit _ _ _ b h with h | h
      · simp at h
      · exact Or.inr h
  · rcases decimalDigits_isDigit _ _ _ b hb with h | h
    · simp at h
    · exact Or.inr h

theorem isDigit_ne_cr (b : Byte) (h : isDigit b = true) : b ≠ 13 := by
  rintro rfl; exact absurd h (by decide)

theorem decimalValue_concat (ds : GoString) (b : Byte) :
    decimalValue (ds ++ [b]) = 10 * decimalValue ds + (b.toNat - 48) := by
  simp [decimalValue, List.foldl_append]

theorem digitByte_toNat (d : Nat) (h : d < 10) : ((48 + d).toUInt8).toNat = 48 + d := by
  simp [Nat.toUInt8, UInt8.toNat, UInt8.ofNat, UInt8.size]
  omega

theorem digitByte_isDigit (d : Nat) (h : d < 10) : isDigit (48 + d).toUInt8 = true := by
  simp only [isDigit, digitByte_toNat d h]
  simp
  omega

theorem digitByte_eq_zero (d : Nat) (h : d < 10) (h0 : (48 + d).toUInt8 = 48) : d = 0 := by
  have := congrArg UInt8.toNat h0
  rw [digitByte_toNat d h] at this
  have h48 : (48 : UInt8).toNat = 48 := by decide
  omega

/-- The digits `decimalDigits` puts in front of `acc` are the decimal numeral of `n`:
digits only, at least one, no leading zero but for the numeral `0`, and of value `n`. -/
theorem decimalDigits_numeral (fuel n : Nat) (acc : GoString) (h : n < fuel) :
    ∃ ds, decimalDigits fuel n acc = ds ++ acc ∧ ds ≠ []
      ∧ (∀ b ∈ ds, isDigit b = true) ∧ (ds.head? = some 48 → ds = [48])
      ∧ decimalValue ds = n := by
  induction fuel generalizing n acc with
  | zero => exact absurd h (Nat.not_lt_zero n)
  | succ fuel ih =>
    have hd : n % 10 < 10 := Nat.mod_lt _ (by decide)
    unfold decimalDigits
    by_cases h10 : n / 10 = 0
    · rw [if_pos h10]
      have hn : n % 10 = n := Nat.mod_eq_of_lt (by omega)
      refine ⟨[(48 + n % 10).toUInt8], rfl, by simp, ?_, ?_, ?_⟩
      · intro b hb
        rw [List.mem_singleton.1 hb]
        exact digitByte_isDigit _ hd
      · intro hh
        simp only [List.head?_cons, Option.some.injEq] at hh
        rw [hh]
      · simp only [decimalValue, List.foldl_cons, List.foldl_nil, digitByte_toNat _ hd]
        omega
    · rw [if_neg h10]
      have hlt : n / 10 < fuel := by omega
      obtain ⟨ds, hds, hne, hdig, hlead, hval⟩ := ih (n / 10) ((48 + n % 10).toUInt8 :: acc) hlt
      refine ⟨ds ++ [(48 + n % 10).toUInt8], by rw [hds]; simp, by simp, ?_, ?_, ?_⟩
      · intro b hb
        rcases List.mem_append.1 hb with hb | hb
        · exact hdig b hb
        · rw [List.mem_singleton.1 hb]
          exact digitByte_isDigit _ hd
      · intro hh
        exfalso
        have hhead : ds.head? = some 48 := by
          cases ds with
          | nil => exact absurd rfl hne
          | cons x xs => simpa using hh
        have := hlead hhead
        rw [this] at hval
        simp [decimalValue] at hval
        exact h10 hval.symm
      · rw [decimalValue_concat, hval, digitByte_toNat _ hd]
        omega

theorem digitChar_byte (d : Nat) (h : d < 10) :
    (Nat.digitChar d).toNat.toUInt8 = (48 + d).toUInt8 := by
  interval_cases d <;> rfl

theorem decimalDigits_toDigitsCore (fuel n : Nat) (cs : List Char) :
    decimalDigits fuel n (cs.map (fun c => c.toNat.toUInt8))
      = (Nat.toDigitsCore 10 fuel n cs).map (fun c => c.toNat.toUInt8) := by
  induction fuel generalizing n cs with
  | zero => rfl
  | succ fuel ih =>
    have hd : n % 10 < 10 := Nat.mod_lt _ (by decide)
    unfold decimalDigits Nat.toDigitsCore
    by_cases h10 : n / 10 = 0
    · simp only [h10, if_true, List.map_cons, digitChar_byte _ hd]
    · simp only [h10, if_false]
      rw [← ih, List.map_cons, digitChar_byte _ hd]

theorem ascii_natRepr (m : Nat) : ascii (toString m) = decimalDigits (m + 1) m [] := by
  have h := decimalDigits_toDigitsCore (m + 1) m []
  simp only [List.map_nil] at h
  rw [h]
  rfl

/-- The model of `%d` agrees with the decimal text of an integer. -/
theorem formatDecimal_eq_toString (n : Int) : formatDecimal n = ascii (toString n) := by
  cases n with
  | ofNat m =>
    have hnn : ¬ (Int.ofNat m < 0) := by simp
    unfold formatDecimal
    rw [if_neg hnn]
    exact (ascii_natRepr m).symm
  | negSucc m =>
    have hneg : Int.negSucc m < 0 := Int.negSucc_lt_zero m
    unfold formatDecimal
    rw [if_pos hneg]
    have : ascii (toString (Int.negSucc m)) = 45 :: ascii (toString (m + 1)) := rfl
    rw [this, ascii_natRepr]
    rfl

/-- The model of `%d` writes the decimal numeral of the integer: `-` exactly for a
negative one, then its digits. -/
theorem formatDecimal_numeral (n : Int) :
    ∃ ds, formatDecimal n = (if n < 0 then ascii "-" else []) ++ ds ∧ ds ≠ []
      ∧ (∀ b ∈ ds, isDigit b = true) ∧ (ds.head? = some 48 → ds = [48])
      ∧ decimalValue ds = n.natAbs := by
  obtain ⟨ds, hds, hne, hdig, hlead, hval⟩ :=
    decimalDigits_numeral (n.natAbs + 1) n.natAbs [] (Nat.lt_succ_self _)
  rw [List.append_nil] at hds
  refine ⟨ds, ?_, hne, hdig, hlead, hval⟩
  unfold formatDecimal
  by_cases hn : n < 0
  · rw [if_pos hn, if_pos hn, hds]; rfl
  · rw [if_neg hn, if_neg hn, hds]; rfl

/-! ## Lemmas on the matcher -/

theorem matchLit_append (lit s : GoString) : matchLit lit (lit ++ s) = some s := by
  induction lit with
  | nil => rfl
  | cons b bs ih => simp [matchLit, ih]

theorem matchLit_sound (lit s rest : GoString) (h : matchLit lit s = some rest) :
    s = lit ++ rest := by
  induction lit generalizing s with
  | nil => simp [matchLit] at h; simp [h]
  | cons b bs ih =>
    cases s with
    | nil => simp [matchLit] at h
    | cons c cs =>
      simp only [matchLit] at h
      split at h
      · next hbc => rw [hbc, ih cs h]; rfl
      · exact absurd h (by simp)

theorem matchPlus_sound {α : Type} (p : Byte → Bool) (s : GoString)
    (k : GoString → Option α) (v : α) (h : matchPlus p s k = some v) :
    ∃ w rest, s = w ++ rest ∧ w ≠ [] ∧ (∀ b ∈ w, p b = true) ∧ k rest = some v := by
  induction s with
  | nil => simp [matchPlus] at h
  | cons b s ih =>
    simp only [matchPlus] at h
    split at h
    · next hp =>
      split at h
      · next v' hv =>
        have hvv : v' = v := by simpa using h
        subst hvv
        obtain ⟨w, rest, hs, _, hw, hk⟩ := ih hv
        refine ⟨b :: w, rest, by simp [hs], by simp, ?_, hk⟩
        intro x hx
        rcases List.mem_cons.1 hx with hx | hx
        · exact hx ▸ hp
        · exact hw x hx
      · exact ⟨[b], s, rfl, by simp, by simpa using hp, h⟩
    · exact absurd h (by simp)

theorem matchPlus_none_of_head {α : Type} (p : Byte → Bool) (s : GoString)
    (k : GoString → Option α) (h : ∀ b ∈ s.head?, p b = false) : matchPlus p s k = none := by
  cases s with
  | nil => rfl
  | cons b s => simp [matchPlus, h b (by simp)]

theorem matchPlus_first {α : Type} (p : Byte → Bool) (w rest : GoString)
    (k : GoString → Option α) (v : α) (hne : w ≠ []) (hw : ∀ b ∈ w, p b = true)
    (hrest : ∀ b ∈ rest.head?, p b = false) (hk : k rest = some v) :
    matchPlus p (w ++ rest) k = some v := by
  induction w with
  | nil => exact absurd rfl hne
  | cons b w ih =>
    have hb : p b = true := hw b (by simp)
    cases w with
    | nil =>
      simp [matchPlus, hb, matchPlus_none_of_head p rest k hrest, hk]
    | cons c w =>
      have := ih (by simp) (fun x hx => hw x (List.mem_cons_of_mem _ hx))
      simp only [List.cons_append] at this ⊢
      rw [matchPlus]
      simp [hb, this]

theorem take_consumed (w rest : GoString) :
    (w ++ rest).take ((w ++ rest).length - rest.length) = w := by
  simp

theorem Re.run_sound {α : Type} (r : Re) (s : GoString) (c : Submatch)
    (k : GoString → Submatch → Option α) (v : α) (h : r.run s c k = some v) :
    ∃ w rest c', s = w ++ rest ∧ r.Matches w c c' ∧ k rest c' = some v := by
  induction r generalizing s c k with
  | str lit =>
    simp only [Re.run] at h
    split at h
    · next rest hm => exact ⟨lit, rest, c, matchLit_sound _ _ _ hm, ⟨rfl, rfl⟩, h⟩
    · exact absurd h (by simp)
  | cls p =>
    simp only [Re.run] at h
    split at h
    · exact absurd h (by simp)
    · next b rest =>
      split at h
      · next hp => exact ⟨[b], rest, c, rfl, ⟨b, rfl, hp, rfl⟩, h⟩
      · exact absurd h (by simp)
  | plus p =>
    simp only [Re.run] at h
    obtain ⟨w, rest, hs, hne, hw, hk⟩ := matchPlus_sound p s _ v h
    exact ⟨w, rest, c, hs, ⟨hne, hw, rfl⟩, hk⟩
  | seq r₁ r₂ ih₁ ih₂ =>
    simp only [Re.run] at h
    obtain ⟨w₁, s₁, c₁, hs, hm₁, hk⟩ := ih₁ _ _ _ h
    obtain ⟨w₂, s₂, c₂, hs₂, hm₂, hk₂⟩ := ih₂ _ _ _ hk
    exact ⟨w₁ ++ w₂, s₂, c₂, by rw [hs, hs₂, List.append_assoc], ⟨w₁, w₂, c₁, rfl, hm₁, hm₂⟩, hk₂⟩
  | opt r ih =>
    simp only [Re.run] at h
    split at h
    · next v' hv =>
      have hvv : v' = v := by simpa using h
      subst hvv
      obtain ⟨w, rest, c', hs, hm, hk⟩ := ih _ _ _ hv
      exact ⟨w, rest, c', hs, Or.inr hm, hk⟩
    · exact ⟨[], s, c, rfl, Or.inl ⟨rfl, rfl⟩, h⟩
  | group i r ih =>
    simp only [Re.run] at h
    obtain ⟨w, rest, c', hs, hm, hk⟩ := ih _ _ _ h
    refine ⟨w, rest, _, hs, ⟨c', hm, rfl⟩, ?_⟩
    rw [← hk, hs, take_consumed]
theorem requestPattern_matches (w : GoString) (c c' : Submatch)
    (h : requestPattern.Matches w c c') :
    ∃ t a b, w = requestLine t a b ∧ isDigit a = true ∧ isDigit b = true
      ∧ ((t = [] ∧ c' 1 = c 1) ∨ (IsNameDotExt t ∧ c' 1 = t)) ∧ c' 4 = [a, 46, b] := by
  simp only [requestPattern, Re.Matches] at h
  obtain ⟨w₁, w₂, c₁, hw, ⟨hw₁, hc₁⟩, w₃, w₄, c₂, hw₂, hopt, w₅, w₆, c₃, hw₄, ⟨hw₅, hc₃⟩,
    w₇, w₈, c₄, hw₆, ⟨c₅, ⟨v₁, v₂, c₆, hw₇, ⟨a, hv₁, ha, hc₆⟩, v₃, v₄, c₇, hv₂,
      ⟨hv₃, hc₇⟩, b, hv₄, hb, hc₅⟩, hc₄⟩, hw₈, hc'⟩ := h
  subst hw hw₁ hw₂ hw₄ hw₅ hw₆ hw₇ hv₁ hv₂ hv₃ hv₄ hw₈ hc' hc₁ hc₃ hc₄ hc₅ hc₆ hc₇
  refine ⟨w₃, a, b, ?_, ha, hb, ?_, ?_⟩
  · simp [requestLine, CRLF, ascii, Nat.toUInt8]
  · rcases hopt with ⟨h1, h2⟩ | ⟨c₈, ⟨n, x, c₉, hn, ⟨c₁₀, ⟨hne, hnw, hc₁₀⟩, hc₉⟩, d, e, c₁₁, hx,
      ⟨hd, hc₁₁⟩, c₁₂, ⟨hene, hew, hc₁₂⟩, hc₈'⟩, hc₈⟩
    · left; exact ⟨h1, by simp [h2, Function.update]⟩
    · right
      subst hn hx hd hc₈
      exact ⟨⟨n, e, by simp [ascii, Nat.toUInt8], ⟨hne, hnw⟩, ⟨hene, hew⟩⟩,
        by simp [Function.update]⟩
  · simp [ascii, Nat.toUInt8]
theorem findSubmatch_some (re : Re) (s : GoString) (m : Submatch)
    (h : findSubmatch re s = some m) :
    ∃ pre rest, s = pre ++ rest ∧ matchAt re rest = some m := by
  induction s with
  | nil => exact ⟨[], [], rfl, h⟩
  | cons b s ih =>
    simp only [findSubmatch] at h
    split at h
    · next m' hm =>
      have : m' = m := by simpa using h
      subst this
      exact ⟨[], b :: s, rfl, hm⟩
    · obtain ⟨pre, rest, hs, hm⟩ := ih h
      exact ⟨b :: pre, rest, by simp [hs], hm⟩

theorem findSubmatch_isSome (re : Re) (pre rest : GoString)
    (h : (matchAt re rest).isSome = true) : (findSubmatch re (pre ++ rest)).isSome = true := by
  induction pre with
  | nil =>
    cases rest with
    | nil => exact h
    | cons b s =>
      simp only [List.nil_append, findSubmatch]
      split
      · rfl
      · next hn => simp [hn] at h
  | cons b pre ih =>
    simp only [List.cons_append, findSubmatch]
    split
    · rfl
    · exact ih

theorem findSubmatch_of_matchAt (re : Re) (s : GoString) (m : Submatch)
    (h : matchAt re s = some m) : findSubmatch re s = some m := by
  cases s with
  | nil => exact h
  | cons b s => simp [findSubmatch, h]

theorem matchAt_sound (s : GoString) (m : Submatch) (h : matchAt requestPattern s = some m) :
    ∃ t a b rest, s = requestLine t a b ++ rest ∧ isDigit a = true ∧ isDigit b = true
      ∧ (t = [] ∨ IsNameDotExt t) ∧ m 1 = t ∧ m 4 = [a, 46, b] := by
  obtain ⟨w, rest, c', hs, ⟨c₁, hm, hc'⟩, hk⟩ := Re.run_sound _ _ _ _ _ h
  obtain ⟨t, a, b, hw, ha, hb, ht, h4⟩ := requestPattern_matches _ _ _ hm
  have hm' : m = c' := by simpa using hk.symm
  subst hm' hc'
  refine ⟨t, a, b, rest, by rw [hs, hw], ha, hb, ?_, ?_, ?_⟩
  · rcases ht with ⟨h, _⟩ | ⟨h, _⟩
    · exact Or.inl h
    · exact Or.inr h
  · rcases ht with ⟨h, h1⟩ | ⟨_, h1⟩
    · simp [Function.update, h1, h]
    · simp [Function.update, h1]
  · simp [Function.update, h4]

theorem versionTail_run {α : Type} (a b : Byte) (rest : GoString) (c : Submatch)
    (k : GoString → Submatch → Option α) (ha : isDigit a = true) (hb : isDigit b = true) :
    (Re.seq (Re.str (ascii " HTTP/"))
        (Re.seq
          (Re.group 4 (Re.seq (Re.cls isDigit) (Re.seq (Re.str (ascii ".")) (Re.cls isDigit))))
          (Re.str (ascii "\r\n")))).run (ascii " HTTP/" ++ [a, 46, b] ++ CRLF ++ rest) c k
      = k rest (Function.update c 4 [a, 46, b]) := by
  simp [Re.run, matchLit, ascii, CRLF, Nat.toUInt8, ha, hb]
theorem take_consumed' (w rest : GoString) (n : Nat) (h : n = w.length) :
    (w ++ rest).take n = w := by
  subst h; simp

theorem pathGroup_run {α : Type} (name ext rest : GoString) (c : Submatch)
    (k : GoString → Submatch → Option α) (v : α)
    (hn : IsWordString name) (he : IsWordString ext)
    (hrest : ∀ b ∈ rest.head?, isWord b = false)
    (hk : k rest (Function.update (Function.update (Function.update c 2 name) 3 ext) 1
      (name ++ 46 :: ext)) = some v) :
    (Re.group 1
        (Re.seq (Re.group 2 (Re.plus isWord))
          (Re.seq (Re.str (ascii ".")) (Re.group 3 (Re.plus isWord))))).run
      (name ++ 46 :: ext ++ rest) c k = some v := by
  simp only [Re.run]
  rw [List.append_assoc]
  apply matchPlus_first isWord name ((46 :: ext) ++ rest) _ v hn.1 hn.2
  · intro b hb
    have : b = 46 := by simpa using hb.symm
    subst this; decide
  · have h46 : matchLit (ascii ".") (46 :: ext ++ rest) = some (ext ++ rest) := by
      simp [matchLit, ascii, Nat.toUInt8]
    simp only [h46]
    apply matchPlus_first isWord ext rest _ v he.1 he.2 hrest
    have e1 : (name ++ (46 :: ext ++ rest)).take
        ((name ++ (46 :: ext ++ rest)).length - (46 :: ext ++ rest).length) = name := by
      simp
    have e2 : (ext ++ rest).take ((ext ++ rest).length - rest.length) = ext := by simp
    have e3 : (name ++ (46 :: ext ++ rest)).take
        ((name ++ (46 :: ext ++ rest)).length - rest.length) = name ++ 46 :: ext := by
      have : name ++ (46 :: ext ++ rest) = (name ++ 46 :: ext) ++ rest := by simp
      rw [this]
      apply take_consumed'
      simp only [List.length_append, List.length_cons]
      omega
    rw [e1, e2, e3]
    exact hk

theorem pathGroup_none {α : Type} (s : GoString) (c : Submatch)
    (k : GoString → Submatch → Option α) (hs : ∀ b ∈ s.head?, isWord b = false) :
    (Re.group 1
        (Re.seq (Re.group 2 (Re.plus isWord))
          (Re.seq (Re.str (ascii ".")) (Re.group 3 (Re.plus isWord))))).run s c k = none := by
  simp only [Re.run]
  exact matchPlus_none_of_head _ _ _ hs

theorem requestLine_root (a b : Byte) (rest : GoString) :
    requestLine [] a b ++ rest
      = ascii "GET /" ++ (ascii " HTTP/" ++ [a, 46, b] ++ CRLF ++ rest) := by
  simp [requestLine]

theorem requestLine_file (name ext : GoString) (a b : Byte) (rest : GoString) :
    requestLine (name ++ 46 :: ext) a b ++ rest
      = ascii "GET /" ++ (name ++ 46 :: ext ++ (ascii " HTTP/" ++ [a, 46, b] ++ CRLF ++ rest)) := by
  simp [requestLine]

theorem consumed_requestLine (t : GoString) (a b : Byte) (rest : GoString) :
    (requestLine t a b ++ rest).take ((requestLine t a b ++ rest).length - rest.length)
      = requestLine t a b := by
  simp

theorem matchAt_requestLine_root (a b : Byte) (rest : GoString)
    (ha : isDigit a = true) (hb : isDigit b = true) :
    matchAt requestPattern (requestLine [] a b ++ rest)
      = some (Function.update (Function.update (fun _ => []) 4 [a, 46, b]) 0
          (requestLine [] a b)) := by
  have hc := consumed_requestLine [] a b rest
  simp only [matchAt, requestPattern]
  rw [Re.run, Re.run, Re.run]
  rw [requestLine_root] at hc ⊢
  rw [matchLit_append]
  simp only []
  rw [Re.run, Re.run, pathGroup_none _ _ _ (by intro b hb; simp [ascii] at hb; subst hb; decide)]
  simp only []
  rw [versionTail_run _ _ _ _ _ ha hb, hc]

theorem matchAt_requestLine_file (name ext : GoString) (a b : Byte) (rest : GoString)
    (hn : IsWordString name) (he : IsWordString ext)
    (ha : isDigit a = true) (hb : isDigit b = true) :
    matchAt requestPattern (requestLine (name ++ 46 :: ext) a b ++ rest)
      = some (Function.update (Function.update (Function.update (Function.update
          (Function.update (fun _ => []) 2 name) 3 ext) 1 (name ++ 46 :: ext)) 4 [a, 46, b]) 0
          (requestLine (name ++ 46 :: ext) a b)) := by
  have hc := consumed_requestLine (name ++ 46 :: ext) a b rest
  simp only [matchAt, requestPattern]
  rw [Re.run, Re.run, Re.run]
  rw [requestLine_file] at hc ⊢
  rw [matchLit_append]
  simp only []
  rw [Re.run, Re.run]
  rw [pathGroup_run name ext _ _ _ _ hn he (by intro b hb; simp [ascii] at hb; subst hb; decide)
    (versionTail_run _ _ _ _ _ ha hb)]
  simp only [hc]

/-! ## Lemmas on the handler -/

theorem buildHTML_length (title message : GoString) :
    (buildHTML title message).length = 91 + 2 * title.length + message.length := by
  rw [buildHTML_closed]
  simp [ascii]
  omega

theorem respond_body (env : Env) (header body : GoString)
    (h : DefaultContentPreviewLength ≤ body.length) :
    respond env (some header) (some body)
      = Event.write (header ++ CRLF ++ body) ::
          (if env.writeFails then [Event.fatal] else closeConnection env) := by
  simp [respond, Nat.not_lt.2 h]

theorem writes_tail (env : Env) :
    writes (if env.writeFails then [Event.fatal] else closeConnection env) = [] := by
  cases hw : env.writeFails <;> cases hc : env.closeFails <;> simp [writes, closeConnection, hc]

theorem fileReads_tail (env : Env) :
    fileReads (if env.writeFails then [Event.fatal] else closeConnection env) = [] := by
  cases hw : env.writeFails <;> cases hc : env.closeFails <;>
    simp [fileReads, closeConnection, hc]

theorem handleConnection_parse_failure (env : Env) (line : GoString)
    (hread : env.readString = some line) (hfail : findSubmatch requestPattern line = none) :
    handleConnection env
      = Event.parse line ::
        Event.write (buildHTTPHeader 404 (ascii "1.1") (ascii "text/html") ++ CRLF
          ++ buildHTML (ascii "404 Not Found") (ascii "Page not found")) ::
        (if env.writeFails then [Event.fatal] else closeConnection env) := by
  simp only [handleConnection, hread, hfail]
  rw [respond_body]
  rw [buildHTML_length, DefaultContentPreviewLength]; omega

theorem handleConnection_read_failure (env : Env) (line : GoString) (m : Submatch)
    (hread : env.readString = some line) (hm : findSubmatch requestPattern line = some m)
    (hfile : env.readFile (if m 1 = [] then ascii "index.html" else m 1) = none) :
    handleConnection env
      = Event.parse line ::
        Event.readFile (if m 1 = [] then ascii "index.html" else m 1) ::
        Event.write (buildHTTPHeader 404 (m 4) (ascii "text/html") ++ CRLF
          ++ buildHTML (ascii "404 Not Found") (ascii "File not found")) ::
        (if env.writeFails then [Event.fatal] else closeConnection env) := by
  simp only [handleConnection, hread, hm, hfile]
  rw [respond_body]
  rw [buildHTML_length, DefaultContentPreviewLength]; omega

theorem handleConnection_short_content (env : Env) (line content : GoString) (m : Submatch)
    (hread : env.readString = some line) (hm : findSubmatch requestPattern line = some m)
    (hfile : env.readFile (if m 1 = [] then ascii "index.html" else m 1) = some content)
    (hlen : content.length < DefaultContentPreviewLength) :
    handleConnection env
      = [Event.parse line, Event.readFile (if m 1 = [] then ascii "index.html" else m 1),
          Event.panicked] := by
  simp only [handleConnection, hread, hm, hfile, hlen, if_true]

theorem getContentType_isSome (s : GoString) : ∃ ct, getContentType s = some ct := by
  obtain ⟨e, he, h⟩ := exists_extension s 46
  exact ⟨_, getContentType_of_ext s e he h⟩

theorem handleConnection_success (env : Env) (line content : GoString) (m : Submatch)
    (hread : env.readString = some line) (hm : findSubmatch requestPattern line = some m)
    (hfile : env.readFile (if m 1 = [] then ascii "index.html" else m 1) = some content)
    (hlen : DefaultContentPreviewLength ≤ content.length) :
    ∃ contentType,
      getContentType (if m 1 = [] then ascii "index.html" else m 1) = some contentType ∧
      handleConnection env
        = Event.parse line ::
          Event.readFile (if m 1 = [] then ascii "index.html" else m 1) ::
          Event.write (buildHTTPHeader 200 (m 4) contentType ++ CRLF ++ content) ::
          (if env.writeFails then [Event.fatal] else closeConnection env) := by
  obtain ⟨ct, hct⟩ := getContentType_isSome (if m 1 = [] then ascii "index.html" else m 1)
  refine ⟨ct, hct, ?_⟩
  simp only [handleConnection, hread, hm, hfile, Nat.not_lt.2 hlen, if_false, hct]
  rw [respond_body _ _ _ hlen]

theorem fileReads_parsed (env : Env) (line : GoString) (m : Submatch)
    (hread : env.readString = some line) (hm : findSubmatch requestPattern line = some m) :
    fileReads (handleConnection env) = [if m 1 = [] then ascii "index.html" else m 1] := by
  cases hfile : env.readFile (if m 1 = [] then ascii "index.html" else m 1) with
  | none =>
    rw [handleConnection_read_failure env line m hread hm hfile]
    simp only [fileReads, fileReads_tail]
  | some content =>
    by_cases hlen : content.length < DefaultContentPreviewLength
    · rw [handleConnection_short_content env line content m hread hm hfile hlen]
      simp [fileReads]
    · obtain ⟨ct, _, h⟩ :=
        handleConnection_success env line content m hread hm hfile (Nat.not_lt.1 hlen)
      rw [h]
      simp only [fileReads, fileReads_tail]

theorem requestLine_has_lf (t : GoString) (a b : Byte) :
    ∃ init, requestLine t a b = init ++ [10] :=
  ⟨ascii "GET /" ++ t ++ ascii " HTTP/" ++ [a, 46, b] ++ [13], by simp [requestLine, CRLF, ascii, Nat.toUInt8]⟩

theorem line_match_at_end (line pre rest : GoString) (t : GoString) (a b : Byte)
    (hline : IsLine line) (h : line = pre ++ requestLine t a b ++ rest) : rest = [] := by
  obtain ⟨body, hb, hlf⟩ := hline
  obtain ⟨init, hinit⟩ := requestLine_has_lf t a b
  rcases List.eq_nil_or_concat rest with hr | ⟨rest', y, hr⟩
  · exact hr
  · exfalso
    rw [hb, hinit, hr] at h
    have h' : body ++ [10] = (pre ++ (init ++ [10]) ++ rest') ++ [y] := by
      rw [h]; simp
    have := List.append_inj_left' h' rfl
    apply hlf
    rw [this]
    simp

/-! ## Further lemmas on the matcher and the handler -/

theorem findSubmatch_sound (s : GoString) (m : Submatch)
    (h : findSubmatch requestPattern s = some m) :
    ∃ pre t a b rest, s = pre ++ requestLine t a b ++ rest ∧ isDigit a = true
      ∧ isDigit b = true ∧ (t = [] ∨ IsNameDotExt t) ∧ m 1 = t ∧ m 4 = [a, 46, b] := by
  obtain ⟨pre, s', hs, hat⟩ := findSubmatch_some _ _ _ h
  obtain ⟨t, a, b, rest, hs', ha, hb, ht, h1, h4⟩ := matchAt_sound _ _ hat
  exact ⟨pre, t, a, b, rest, by rw [hs, hs', List.append_assoc], ha, hb, ht, h1, h4⟩

theorem isWord_ne (b c : Byte) (hb : isWord b = true) (hc : isWord c = false) : b ≠ c := by
  rintro rfl; rw [hb] at hc; exact absurd hc (by simp)

theorem not_mem_of_word (w : GoString) (c : Byte) (hw : ∀ b ∈ w, isWord b = true)
    (hc : isWord c = false) : c ∉ w := by
  intro h
  have := hw c h
  rw [hc] at this
  exact absurd this (by simp)

theorem not_mem_nameDotExt (t : GoString) (c : Byte) (ht : IsNameDotExt t)
    (hc : isWord c = false) (h46 : c ≠ 46) : c ∉ t := by
  obtain ⟨name, ext, rfl, hn, he⟩ := ht
  intro h
  rcases List.mem_append.1 h with h | h
  · exact not_mem_of_word name c hn.2 hc h
  · rcases List.mem_cons.1 h with h | h
    · exact h46 h
    · exact not_mem_of_word ext c he.2 hc h

theorem append_cons_unique (xs xs' t t' : GoString) (c : Byte)
    (h : xs ++ c :: t = xs' ++ c :: t') (ht : c ∉ t) (ht' : c ∉ t') : xs = xs' ∧ t = t' := by
  induction xs generalizing xs' with
  | nil =>
    cases xs' with
    | nil => simpa using h
    | cons y ys =>
      exfalso
      simp only [List.nil_append, List.cons_append, List.cons.injEq] at h
      exact ht (by rw [h.2]; simp)
  | cons x xs ih =>
    cases xs' with
    | nil =>
      exfalso
      simp only [List.nil_append, List.cons_append, List.cons.injEq] at h
      exact ht' (by rw [← h.2]; simp)
    | cons y ys =>
      simp only [List.cons_append, List.cons.injEq] at h
      obtain ⟨h1, h2⟩ := ih ys h.2
      exact ⟨by rw [h.1, h1], h2⟩
theorem request_tail_cancel (x x' : GoString) (a b a' b' : Byte)
    (h : x ++ (ascii " HTTP/" ++ [a, 46, b] ++ CRLF) = x' ++ (ascii " HTTP/" ++ [a', 46, b'] ++ CRLF)) :
    x = x' ∧ a = a' ∧ b = b' := by
  have hl : (ascii " HTTP/" ++ [a, 46, b] ++ CRLF).length
      = (ascii " HTTP/" ++ [a', 46, b'] ++ CRLF).length := by simp
  obtain ⟨h1, h2⟩ := List.append_inj' h hl
  refine ⟨h1, ?_⟩
  simpa [ascii, CRLF] using h2

theorem requestLine_split (t : GoString) (a b : Byte) (p : GoString) :
    p ++ requestLine t a b = (p ++ ascii "GET " ++ 47 :: t) ++ (ascii " HTTP/" ++ [a, 46, b] ++ CRLF) := by
  simp [requestLine, ascii, Nat.toUInt8]

theorem requestLine_unique (p t p' t' : GoString) (a b a' b' : Byte)
    (ht : (47 : Byte) ∉ t) (ht' : (47 : Byte) ∉ t')
    (h : p ++ requestLine t a b = p' ++ requestLine t' a' b') :
    p = p' ∧ t = t' ∧ a = a' ∧ b = b' := by
  rw [requestLine_split, requestLine_split] at h
  obtain ⟨h1, ha, hb⟩ := request_tail_cancel _ _ _ _ _ _ h
  obtain ⟨h2, h3⟩ := append_cons_unique _ _ _ _ _ h1 ht ht'
  exact ⟨List.append_cancel_right h2, h3, ha, hb⟩

theorem shape_no_slash (t : GoString) (ht : t = [] ∨ IsNameDotExt t) : (47 : Byte) ∉ t := by
  rcases ht with rfl | ht
  · simp
  · exact not_mem_nameDotExt t 47 ht (by decide) (by decide)

theorem shape_no_space (t : GoString) (ht : t = [] ∨ IsNameDotExt t) : (32 : Byte) ∉ t := by
  rcases ht with rfl | ht
  · simp
  · exact not_mem_nameDotExt t 32 ht (by decide) (by decide)
theorem get_slash_align (pre t q : GoString)
    (h : pre ++ ascii "GET " ++ 47 :: t = ascii "GET " ++ q) (hq : (32 : Byte) ∉ q) :
    pre = [] ∧ q = 47 :: t := by
  rcases pre with _ | ⟨x1, _ | ⟨x2, _ | ⟨x3, _ | ⟨x4, pre⟩⟩⟩⟩
  · simp [ascii] at h
    exact ⟨rfl, h.symm⟩
  · simp [ascii, Nat.toUInt8] at h
  · simp [ascii, Nat.toUInt8] at h
  · simp [ascii, Nat.toUInt8] at h
  · exfalso
    simp [ascii, Nat.toUInt8] at h
    apply hq
    rw [← h.2.2.2.2]
    simp

theorem isDigit_ne_lf (b : Byte) (h : isDigit b = true) : b ≠ 10 := by
  rintro rfl; exact absurd h (by decide)

theorem no_match_general (q : GoString) (a b : Byte)
    (hsp : (32 : Byte) ∉ q) (hlf : (10 : Byte) ∉ q)
    (ha : isDigit a = true) (hb : isDigit b = true)
    (hq : ∀ t, q = 47 :: t → ¬ (t = [] ∨ IsNameDotExt t)) :
    findSubmatch requestPattern (ascii "GET " ++ q ++ ascii " HTTP/" ++ [a, 46, b] ++ CRLF)
      = none := by
  cases hf : findSubmatch requestPattern
      (ascii "GET " ++ q ++ ascii " HTTP/" ++ [a, 46, b] ++ CRLF) with
  | none => rfl
  | some m =>
    exfalso
    obtain ⟨pre, t, a', b', rest, hs, _, _, ht, _, _⟩ := findSubmatch_sound _ _ hf
    have hline : IsLine (ascii "GET " ++ q ++ ascii " HTTP/" ++ [a, 46, b] ++ CRLF) := by
      refine ⟨ascii "GET " ++ q ++ ascii " HTTP/" ++ [a, 46, b] ++ [13],
        by simp [CRLF, ascii, Nat.toUInt8], ?_⟩
      intro hm
      simp only [List.mem_append, List.mem_cons, List.mem_singleton, List.not_mem_nil,
        or_false] at hm
      rcases hm with (((hm | hm) | hm) | hm) | hm
      · revert hm; decide
      · exact hlf hm
      · revert hm; decide
      · rcases hm with hm | hm | hm
        · exact isDigit_ne_lf a ha hm.symm
        · revert hm; decide
        · exact isDigit_ne_lf b hb hm.symm
      · revert hm; decide
    have hrest := line_match_at_end _ pre rest t a' b' hline hs
    subst hrest
    rw [List.append_nil, requestLine_split] at hs
    have hs' : (ascii "GET " ++ q) ++ (ascii " HTTP/" ++ [a, 46, b] ++ CRLF)
        = (pre ++ ascii "GET " ++ 47 :: t) ++ (ascii " HTTP/" ++ [a', 46, b'] ++ CRLF) := by
      rw [← hs]; simp
    obtain ⟨h1, _, _⟩ := request_tail_cancel _ _ _ _ _ _ hs'
    obtain ⟨_, h2⟩ := get_slash_align pre t q h1.symm hsp
    exact hq t h2 ht
theorem handleConnection_read_error (env : Env) (h : env.readString = none) :
    handleConnection env = closeConnection env := by
  simp [handleConnection, h, respond]

/-- The five paths through `handleConnection`. -/
theorem handleConnection_cases (env : Env) :
    (env.readString = none ∧ handleConnection env = closeConnection env)
    ∨ (∃ line, env.readString = some line ∧ findSubmatch requestPattern line = none
        ∧ handleConnection env
          = Event.parse line ::
            Event.write (buildHTTPHeader 404 (ascii "1.1") (ascii "text/html") ++ CRLF
              ++ buildHTML (ascii "404 Not Found") (ascii "Page not found")) ::
            (if env.writeFails then [Event.fatal] else closeConnection env))
    ∨ (∃ line m, env.readString = some line ∧ findSubmatch requestPattern line = some m
        ∧ env.readFile (resolvedPath m) = none
        ∧ handleConnection env
          = Event.parse line :: Event.readFile (resolvedPath m) ::
            Event.write (buildHTTPHeader 404 (m 4) (ascii "text/html") ++ CRLF
              ++ buildHTML (ascii "404 Not Found") (ascii "File not found")) ::
            (if env.writeFails then [Event.fatal] else closeConnection env))
    ∨ (∃ line m content, env.readString = some line
        ∧ findSubmatch requestPattern line = some m
        ∧ env.readFile (resolvedPath m) = some content
        ∧ content.length < DefaultContentPreviewLength
        ∧ handleConnection env
          = [Event.parse line, Event.readFile (resolvedPath m), Event.panicked])
    ∨ (∃ line m content contentType, env.readString = some line
        ∧ findSubmatch requestPattern line = some m
        ∧ env.readFile (resolvedPath m) = some content
        ∧ DefaultContentPreviewLength ≤ content.length
        ∧ getContentType (resolvedPath m) = some contentType
        ∧ handleConnection env
          = Event.parse line :: Event.readFile (resolvedPath m) ::
            Event.write (buildHTTPHeader 200 (m 4) contentType ++ CRLF ++ content) ::
            (if env.writeFails then [Event.fatal] else closeConnection env)) := by
  cases hread : env.readString with
  | none => exact Or.inl ⟨rfl, handleConnection_read_error env hread⟩
  | some line =>
    right
    cases hm : findSubmatch requestPattern line with
    | none => exact Or.inl ⟨line, rfl, hm, handleConnection_parse_failure env line hread hm⟩
    | some m =>
      right
      cases hfile : env.readFile (resolvedPath m) with
      | none =>
        exact Or.inl ⟨line, m, rfl, hm, hfile,
          handleConnection_read_failure env line m hread hm hfile⟩
      | some content =>
        right
        by_cases hlen : content.length < DefaultContentPreviewLength
        · exact Or.inl ⟨line, m, content, rfl, hm, hfile, hlen,
            handleConnection_short_content env line content m hread hm hfile hlen⟩
        · obtain ⟨ct, hct, h⟩ :=
            handleConnection_success env line content m hread hm hfile (Nat.not_lt.1 hlen)
          exact Or.inr ⟨line, m, content, ct, rfl, hm, hfile, Nat.not_lt.1 hlen, hct, h⟩

theorem writes_closeConnection (env : Env) : writes (closeConnection env) = [] := by
  cases hc : env.closeFails <;> simp [writes, closeConnection, hc]

theorem fileReads_closeConnection (env : Env) : fileReads (closeConnection env) = [] := by
  cases hc : env.closeFails <;> simp [fileReads, closeConnection, hc]

theorem parses_closeConnection (env : Env) : parses (closeConnection env) = [] := by
  cases hc : env.closeFails <;> simp [parses, closeConnection, hc]

theorem panicked_not_mem_tail (env : Env) :
    Event.panicked ∉ (if env.writeFails then [Event.fatal] else closeConnection env) := by
  cases hw : env.writeFails <;> cases hc : env.closeFails <;> simp [closeConnection, hc]

/-- Every byte string the handler writes is one of the three responses. -/
theorem writes_cases (env : Env) (r : GoString) (h : r ∈ writes (handleConnection env)) :
    (r = buildHTTPHeader 404 (ascii "1.1") (ascii "text/html") ++ CRLF
          ++ buildHTML (ascii "404 Not Found") (ascii "Page not found"))
    ∨ (∃ line m, env.readString = some line ∧ findSubmatch requestPattern line = some m
        ∧ r = buildHTTPHeader 404 (m 4) (ascii "text/html") ++ CRLF
          ++ buildHTML (ascii "404 Not Found") (ascii "File not found"))
    ∨ (∃ line m content contentType, env.readString = some line
        ∧ findSubmatch requestPattern line = some m
        ∧ env.readFile (resolvedPath m) = some content
        ∧ DefaultContentPreviewLength ≤ content.length
        ∧ getContentType (resolvedPath m) = some contentType
        ∧ r = buildHTTPHeader 200 (m 4) contentType ++ CRLF ++ content) := by
  rcases handleConnection_cases env with ⟨_, hc⟩ | ⟨line, _, _, hc⟩ | ⟨line, m, hr, hm, _, hc⟩
    | ⟨line, m, content, _, _, _, _, hc⟩ | ⟨line, m, content, ct, hr, hm, hf, hl, hct, hc⟩
  · rw [hc, writes_closeConnection] at h; simp at h
  · rw [hc] at h
    simp only [writes, writes_tail, List.mem_singleton] at h
    exact Or.inl h
  · rw [hc] at h
    simp only [writes, writes_tail, List.mem_singleton] at h
    exact Or.inr (Or.inl ⟨line, m, hr, hm, h⟩)
  · rw [hc] at h; simp [writes] at h
  · rw [hc] at h
    simp only [writes, writes_tail, List.mem_singleton] at h
    exact Or.inr (Or.inr ⟨line, m, content, ct, hr, hm, hf, hl, hct, h⟩)

theorem getContentType_range (s ct : GoString) (h : getContentType s = some ct) :
    ct ∈ [ascii "text/html", ascii "audio/x-pn-realaudio", ascii "image/jpeg",
      ascii "application/octet-stream"] := by
  obtain ⟨e, he, hs⟩ := exists_extension s 46
  rw [getContentType_of_ext s e he hs] at h
  have h := (Option.some.inj h).symm
  subst h
  split_ifs <;> simp
theorem isWord_ne_dot (b : Byte) (h : isWord b = true) : b ≠ 46 := by
  rintro rfl; exact absurd h (by decide)

theorem nameDotExt_props (t : GoString) (ht : IsNameDotExt t) :
    t ≠ [] ∧ t.count 46 = 1 ∧ t.head? ≠ some 46 ∧ t.getLast? ≠ some 46
      ∧ ∀ b ∈ t, isWord b = true ∨ b = 46 := by
  obtain ⟨name, ext, rfl, ⟨hn, hnw⟩, ⟨he, hew⟩⟩ := ht
  have hdn : (46 : Byte) ∉ name := not_mem_of_word name 46 hnw (by decide)
  have hde : (46 : Byte) ∉ ext := not_mem_of_word ext 46 hew (by decide)
  refine ⟨by simp, ?_, ?_, ?_, ?_⟩
  · rw [List.count_append, List.count_cons_self, List.count_eq_zero.2 hdn,
      List.count_eq_zero.2 hde]
  · cases name with
    | nil => exact absurd rfl hn
    | cons x xs =>
      simp only [List.cons_append, List.head?_cons, ne_eq, Option.some.injEq]
      exact isWord_ne_dot x (hnw x (by simp))
  · rcases List.eq_nil_or_concat ext with h | ⟨init, y, h⟩
    · exact absurd h he
    · subst h
      simp only [List.concat_eq_append] at hew ⊢
      have : name ++ 46 :: (init ++ [y]) = (name ++ 46 :: init) ++ [y] := by simp
      rw [this, List.getLast?_concat]
      simp only [ne_eq, Option.some.injEq]
      exact isWord_ne_dot y (hew y (by simp))
  · intro b hb
    rcases List.mem_append.1 hb with h | h
    · exact Or.inl (hnw b h)
    · rcases List.mem_cons.1 h with h | h
      · exact Or.inr h
      · exact Or.inl (hew b h)

theorem no_double_dot (t : GoString) (h : t.count 46 = 1) :
    ¬ ∃ u v, t = u ++ [46, 46] ++ v := by
  rintro ⟨u, v, rfl⟩
  simp only [List.count_append, List.count_cons_self, List.count_nil] at h
  omega

theorem resolvedPath_shape (s : GoString) (m : Submatch)
    (h : findSubmatch requestPattern s = some m) :
    resolvedPath m = ascii "index.html" ∨ IsNameDotExt (resolvedPath m) := by
  obtain ⟨pre, t, a, b, rest, _, _, _, ht, h1, _⟩ := findSubmatch_sound s m h
  unfold resolvedPath
  rcases ht with ht | ht
  · left; rw [h1, ht]; rfl
  · right
    have hne : t ≠ [] := (nameDotExt_props t ht).1
    rw [h1, if_neg hne]
    exact ht

theorem index_html_shape : IsNameDotExt (ascii "index.html") :=
  ⟨ascii "index", ascii "html", by decide, by decide, by decide⟩
theorem splitLines_header_block (sl ctl body : GoString)
    (h1 : (13 : Byte) ∉ sl) (h2 : (13 : Byte) ∉ ctl) :
    splitLines (sl ++ CRLF ++ ctl ++ CRLF ++ CRLF ++ body)
      = (sl :: ctl :: [] :: (splitLines body).1, (splitLines body).2) := by
  have e : sl ++ CRLF ++ ctl ++ CRLF ++ CRLF ++ body
      = sl ++ 13 :: 10 :: (ctl ++ 13 :: 10 :: ([] ++ 13 :: 10 :: body)) := by
    simp [CRLF, ascii, Nat.toUInt8]
  rw [e, splitLines_line _ _ h1, splitLines_line _ _ h2, splitLines_line _ _ (by simp)]

theorem response_closed (code : Int) (a b : Byte) (mime body : GoString) :
    buildHTTPHeader code [a, 46, b] mime ++ CRLF ++ body
      = ascii "HTTP/" ++ [a, 46, b] ++ ascii " " ++ formatDecimal code ++ ascii " "
          ++ (if code = 200 then ascii "OK"
              else if code = 404 then ascii "File Not Found"
              else if code = 500 then ascii "Internal Server Error"
              else ascii "Status Code Not Implemented")
          ++ CRLF ++ ascii "Content-Type: " ++ mime ++ CRLF ++ CRLF ++ body := by
  rw [buildHTTPHeader_closed]

theorem statusLine_no_cr (a b : Byte) (code reason : GoString)
    (ha : isDigit a = true) (hb : isDigit b = true)
    (hc : (13 : Byte) ∉ code) (hr : (13 : Byte) ∉ reason) :
    (13 : Byte) ∉ ascii "HTTP/" ++ [a, 46, b] ++ ascii " " ++ code ++ ascii " " ++ reason := by
  intro hm
  simp only [List.mem_append, List.mem_cons, List.mem_singleton, List.not_mem_nil,
    or_false] at hm
  rcases hm with ((((hm | hm) | hm) | hm) | hm) | hm
  · revert hm; decide
  · rcases hm with hm | hm | hm
    · exact isDigit_ne_cr a ha hm.symm
    · revert hm; decide
    · exact isDigit_ne_cr b hb hm.symm
  · revert hm; decide
  · exact hc hm
  · revert hm; decide
  · exact hr hm

theorem contentTypeLine_no_cr (mime : GoString)
    (h : mime ∈ [ascii "text/html", ascii "audio/x-pn-realaudio", ascii "image/jpeg",
      ascii "application/octet-stream"]) :
    (13 : Byte) ∉ ascii "Content-Type: " ++ mime := by
  simp only [List.mem_cons, List.mem_singleton, List.not_mem_nil, or_false] at h
  rcases h with h | h | h | h <;> subst h <;> decide
/-- Every response written is a header for status 200 or 404, a version `a.b`, one of the
four content types, CRLF, and a body of 30 bytes or more that is an error page or a file
content. -/
theorem written_response_parts (env : Env) (r : GoString)
    (h : r ∈ writes (handleConnection env)) :
    ∃ (code : Int) (a b : Byte) (mime body : GoString),
      r = buildHTTPHeader code [a, 46, b] mime ++ CRLF ++ body
      ∧ (code = 200 ∨ code = 404) ∧ isDigit a = true ∧ isDigit b = true
      ∧ mime ∈ [ascii "text/html", ascii "audio/x-pn-realaudio", ascii "image/jpeg",
          ascii "application/octet-stream"]
      ∧ DefaultContentPreviewLength ≤ body.length
      ∧ (body = buildHTML (ascii "404 Not Found") (ascii "Page not found")
          ∨ body = buildHTML (ascii "404 Not Found") (ascii "File not found")
          ∨ ∃ path, env.readFile path = some body) := by
  have hpage : ∀ msg, DefaultContentPreviewLength
      ≤ (buildHTML (ascii "404 Not Found") msg).length := by
    intro msg
    rw [buildHTML_length, DefaultContentPreviewLength]; omega
  rcases writes_cases env r h with h | ⟨line, m, _, hm, h⟩
    | ⟨line, m, content, ct, _, hm, hf, hl, hct, h⟩
  · exact ⟨404, 49, 49, ascii "text/html", _, h, Or.inr rfl, rfl, rfl, by simp,
      hpage _, Or.inl rfl⟩
  · obtain ⟨_, _, a, b, _, _, ha, hb, _, _, h4⟩ := findSubmatch_sound line m hm
    rw [h4] at h
    exact ⟨404, a, b, ascii "text/html", _, h, Or.inr rfl, ha, hb, by simp,
      hpage _, Or.inr (Or.inl rfl)⟩
  · obtain ⟨_, _, a, b, _, _, ha, hb, _, _, h4⟩ := findSubmatch_sound line m hm
    rw [h4] at h
    exact ⟨200, a, b, ct, content, h, Or.inl rfl, ha, hb, getContentType_range _ _ hct,
      hl, Or.inr (Or.inr ⟨_, hf⟩)⟩
theorem matchAt_requestLine (t : GoString) (a b : Byte)
    (ha : isDigit a = true) (hb : isDigit b = true) (ht : t = [] ∨ IsNameDotExt t) :
    ∃ m, matchAt requestPattern (requestLine t a b) = some m ∧ m 1 = t ∧ m 4 = [a, 46, b] := by
  rcases ht with rfl | ⟨name, ext, rfl, hn, he⟩
  · have h := matchAt_requestLine_root a b [] ha hb
    rw [List.append_nil] at h
    exact ⟨_, h, by simp [Function.update], by simp [Function.update]⟩
  · have h := matchAt_requestLine_file name ext a b [] hn he ha hb
    rw [List.append_nil] at h
    exact ⟨_, h, by simp [Function.update], by simp [Function.update]⟩

theorem findSubmatch_complete (p t : GoString) (a b : Byte)
    (ha : isDigit a = true) (hb : isDigit b = true) (ht : t = [] ∨ IsNameDotExt t) :
    (findSubmatch requestPattern (p ++ requestLine t a b)).isSome = true := by
  obtain ⟨m, hm, _, _⟩ := matchAt_requestLine t a b ha hb ht
  exact findSubmatch_isSome requestPattern p _ (by rw [hm]; rfl)

theorem findSubmatch_line_sound (s : GoString) (m : Submatch) (hline : IsLine s)
    (h : findSubmatch requestPattern s = some m) :
    ∃ pre t a b, s = pre ++ requestLine t a b ∧ isDigit a = true ∧ isDigit b = true
      ∧ (t = [] ∨ IsNameDotExt t) ∧ m 1 = t ∧ m 4 = [a, 46, b] := by
  obtain ⟨pre, t, a, b, rest, hs, ha, hb, ht, h1, h4⟩ := findSubmatch_sound s m h
  have hrest := line_match_at_end s pre rest t a b hline hs
  subst hrest
  exact ⟨pre, t, a, b, by rw [hs, List.append_nil], ha, hb, ht, h1, h4⟩

theorem findSubmatch_line_value (s p t : GoString) (a b : Byte) (hline : IsLine s)
    (hs : s = p ++ requestLine t a b)
    (ha : isDigit a = true) (hb : isDigit b = true) (ht : t = [] ∨ IsNameDotExt t) :
    ∃ m, findSubmatch requestPattern s = some m ∧ m 1 = t ∧ m 4 = [a, 46, b] := by
  have hsome := findSubmatch_complete p t a b ha hb ht
  rw [← hs] at hsome
  obtain ⟨m, hm⟩ := Option.isSome_iff_exists.1 hsome
  obtain ⟨p', t', a', b', hs', _, _, ht', h1, h4⟩ := findSubmatch_line_sound s m hline hm
  have heq : p' ++ requestLine t' a' b' = p ++ requestLine t a b := by rw [← hs', hs]
  obtain ⟨_, h2, h3, h5⟩ := requestLine_unique p' t' p t a' b' a b
    (shape_no_slash t' ht') (shape_no_slash t ht) heq
  exact ⟨m, hm, by rw [h1, h2], by rw [h4, h3, h5]⟩

set_option maxRecDepth 8000

/-! ## The claims -/

/-- C1, the code at the claim's own example: for the request line
`GET /index.html HTTP/1.1\r\n` and the 9-byte file content `<p>hi</p>` the handler parses
the line, reads `index.html`, and stops at the out-of-range preview slice of source line
140; nothing is written to the connection, whatever the write and close outcomes. -/
theorem short_file_no_response (writeFails closeFails : Bool) :
    handleConnection (Env.mk (some (ascii "GET /index.html HTTP/1.1\r\n"))
        (fun _ => some (ascii "<p>hi</p>")) writeFails closeFails)
      = [Event.parse (ascii "GET /index.html HTTP/1.1\r\n"),
          Event.readFile (ascii "index.html"), Event.panicked]
    ∧ writes (handleConnection (Env.mk (some (ascii "GET /index.html HTTP/1.1\r\n"))
        (fun _ => some (ascii "<p>hi</p>")) writeFails closeFails)) = [] := by
  cases writeFails <;> cases closeFails <;> decide

/-- C2: for non-empty word strings `name` and `ext` and digits `a`, `b`, matching the line
`GET /name.ext HTTP/a.b\r\n` succeeds; group 1 is `name.ext`, the groups `file_name` and
`file_ext` are `name` and `ext`, the version group is the 3-byte string `a.b`, and the
path the handler passes to `readFile` is exactly `name.ext`. -/
theorem explicit_path_parse (name ext : GoString) (a b : Byte)
    (hn : IsWordString name) (he : IsWordString ext)
    (ha : isDigit a = true) (hb : isDigit b = true) :
    ∃ m, findSubmatch requestPattern
          (ascii "GET /" ++ name ++ ascii "." ++ ext ++ ascii " HTTP/" ++ [a] ++ ascii "."
            ++ [b] ++ ascii "\r\n") = some m
      ∧ m 1 = name ++ ascii "." ++ ext ∧ m 2 = name ∧ m 3 = ext
      ∧ m 4 = [a] ++ ascii "." ++ [b] ∧ (m 4).length = 3
      ∧ ∀ env : Env,
          env.readString = some (ascii "GET /" ++ name ++ ascii "." ++ ext ++ ascii " HTTP/"
            ++ [a] ++ ascii "." ++ [b] ++ ascii "\r\n") →
          fileReads (handleConnection env) = [name ++ ascii "." ++ ext] := by
  have hline : ascii "GET /" ++ name ++ ascii "." ++ ext ++ ascii " HTTP/" ++ [a] ++ ascii "."
      ++ [b] ++ ascii "\r\n" = requestLine (name ++ 46 :: ext) a b ++ [] := by
    simp [requestLine, CRLF, ascii, Nat.toUInt8]
  have hdot : name ++ ascii "." ++ ext = name ++ 46 :: ext := by simp [ascii, Nat.toUInt8]
  have hver : [a] ++ ascii "." ++ [b] = [a, 46, b] := by simp [ascii, Nat.toUInt8]
  have hm := findSubmatch_of_matchAt _ _ _
    (matchAt_requestLine_file name ext a b [] hn he ha hb)
  rw [hline, hdot, hver]
  refine ⟨_, hm, by simp [Function.update], by simp [Function.update],
    by simp [Function.update], by simp [Function.update], by simp [Function.update], ?_⟩
  intro env hread
  rw [fileReads_parsed env _ _ hread hm]
  simp [Function.update]

/-- C2 at `GET /index.html HTTP/1.1\r\n`. -/
theorem explicit_path_parse_witness :
    IsWordString (ascii "index") ∧ IsWordString (ascii "html")
      ∧ isDigit 49 = true ∧ isDigit 49 = true
      ∧ ∃ m, findSubmatch requestPattern
          (ascii "GET /" ++ ascii "index" ++ ascii "." ++ ascii "html" ++ ascii " HTTP/" ++ [49]
            ++ ascii "." ++ [49] ++ ascii "\r\n") = some m
        ∧ m 1 = ascii "index" ++ ascii "." ++ ascii "html" ∧ m 2 = ascii "index"
        ∧ m 3 = ascii "html" ∧ m 4 = [49] ++ ascii "." ++ [49] ∧ (m 4).length = 3
        ∧ ∀ env : Env,
            env.readString = some (ascii "GET /" ++ ascii "index" ++ ascii "." ++ ascii "html"
              ++ ascii " HTTP/" ++ [49] ++ ascii "." ++ [49] ++ ascii "\r\n") →
            fileReads (handleConnection env) = [ascii "index" ++ ascii "." ++ ascii "html"] :=
  ⟨by decide, by decide, rfl, rfl,
    explicit_path_parse (ascii "index") (ascii "html") 49 49 (by decide) (by decide) rfl rfl⟩

/-- C3: for digits `a`, `b` the line `GET / HTTP/a.b\r\n` parses with an empty group 1 and
version `a.b`; the handler reads exactly `index.html`, whose content type is `text/html`,
and when the read gives a content that passes the preview the response written is the 200
header for version `a.b` and `text/html`, CRLF, and the content. -/
theorem root_path_parse (a b : Byte) (ha : isDigit a = true) (hb : isDigit b = true) :
    ∃ m, findSubmatch requestPattern
          (ascii "GET / HTTP/" ++ [a] ++ ascii "." ++ [b] ++ ascii "\r\n") = some m
      ∧ m 1 = [] ∧ m 4 = [a] ++ ascii "." ++ [b]
      ∧ getContentType (ascii "index.html") = some (ascii "text/html")
      ∧ ∀ env : Env,
          env.readString = some (ascii "GET / HTTP/" ++ [a] ++ ascii "." ++ [b] ++ ascii "\r\n") →
          fileReads (handleConnection env) = [ascii "index.html"]
          ∧ ∀ content, env.readFile (ascii "index.html") = some content →
              DefaultContentPreviewLength ≤ content.length →
              writes (handleConnection env)
                = [buildHTTPHeader 200 ([a] ++ ascii "." ++ [b]) (ascii "text/html") ++ CRLF
                    ++ content] := by
  have hline : ascii "GET / HTTP/" ++ [a] ++ ascii "." ++ [b] ++ ascii "\r\n"
      = requestLine [] a b ++ [] := by
    simp [requestLine, CRLF, ascii, Nat.toUInt8]
  have hver : [a] ++ ascii "." ++ [b] = [a, 46, b] := by simp [ascii, Nat.toUInt8]
  have hm := findSubmatch_of_matchAt _ _ _ (matchAt_requestLine_root a b [] ha hb)
  have hct : getContentType (ascii "index.html") = some (ascii "text/html") := by decide
  rw [hline, hver]
  refine ⟨_, hm, by simp [Function.update], by simp [Function.update], hct, ?_⟩
  intro env hread
  refine ⟨by rw [fileReads_parsed env _ _ hread hm]; simp [Function.update], ?_⟩
  intro content hfile hlen
  have hfile' : env.readFile
      (if (Function.update (Function.update (fun _ => ([] : GoString)) 4 [a, 46, b]) 0
          (requestLine [] a b)) 1 = [] then ascii "index.html"
        else (Function.update (Function.update (fun _ => ([] : GoString)) 4 [a, 46, b]) 0
          (requestLine [] a b)) 1) = some content := by
    simpa [Function.update] using hfile
  obtain ⟨ct, hct', h⟩ := handleConnection_success env _ content _ hread hm hfile' hlen
  have hct'' : ct = ascii "text/html" := by
    simp only [Function.update] at hct'
    simp only [show ((1 : Nat) = 0) = False from by simp, show ((1 : Nat) = 4) = False from by simp,
      dite_false, if_true] at hct'
    rw [hct] at hct'
    exact (Option.some.inj hct').symm
  rw [h, hct'']
  simp [writes, writes_tail, Function.update]

/-- C3 at `GET / HTTP/1.0\r\n`. -/
theorem root_path_parse_witness :
    isDigit 49 = true ∧ isDigit 48 = true
      ∧ ∃ m, findSubmatch requestPattern
          (ascii "GET / HTTP/" ++ [49] ++ ascii "." ++ [48] ++ ascii "\r\n") = some m
        ∧ m 1 = [] ∧ m 4 = [49] ++ ascii "." ++ [48]
        ∧ getContentType (ascii "index.html") = some (ascii "text/html")
        ∧ ∀ env : Env,
            env.readString
              = some (ascii "GET / HTTP/" ++ [49] ++ ascii "." ++ [48] ++ ascii "\r\n") →
            fileReads (handleConnection env) = [ascii "index.html"]
            ∧ ∀ content, env.readFile (ascii "index.html") = some content →
                DefaultContentPreviewLength ≤ content.length →
                writes (handleConnection env)
                  = [buildHTTPHeader 200 ([49] ++ ascii "." ++ [48]) (ascii "text/html") ++ CRLF
                      ++ content] :=
  ⟨rfl, rfl, root_path_parse 49 48 rfl rfl⟩

/-- C4 as stated fails: on the line `xGET / HTTP/1.1\r\n` the match succeeds although the
whole line is not of the shape `GET /`, optional `name.ext`, ` HTTP/`, digit `.` digit,
CRLF. -/
theorem whole_line_shape_counterexample :
    ¬ ((findSubmatch requestPattern (ascii "xGET / HTTP/1.1\r\n")).isSome = true →
        ∃ t a b, ascii "xGET / HTTP/1.1\r\n" = requestLine t a b
          ∧ isDigit a = true ∧ isDigit b = true ∧ (t = [] ∨ IsNameDotExt t)) := by
  intro h
  obtain ⟨t, a, b, he, _⟩ := h (by decide)
  simp [requestLine, ascii, Nat.toUInt8] at he

/-- C4, amended: for a line whose only LF is its last byte, the match succeeds only if the
line ends with `GET /`, then nothing or `name.ext`, then ` HTTP/`, digit `.` digit, CRLF,
whatever bytes come before `GET /`; a line with no such ending is a parse failure: no file
is read and the fixed 404 response is written. -/
theorem line_ending_shape (env : Env) (line : GoString) (hline : IsLine line)
    (hread : env.readString = some line) :
    ((findSubmatch requestPattern line).isSome = true →
        ∃ pre t a b, line = pre ++ requestLine t a b
          ∧ isDigit a = true ∧ isDigit b = true ∧ (t = [] ∨ IsNameDotExt t))
    ∧ ((¬ ∃ pre t a b, line = pre ++ requestLine t a b
          ∧ isDigit a = true ∧ isDigit b = true ∧ (t = [] ∨ IsNameDotExt t)) →
        findSubmatch requestPattern line = none
        ∧ fileReads (handleConnection env) = []
        ∧ writes (handleConnection env)
            = [buildHTTPHeader 404 (ascii "1.1") (ascii "text/html") ++ CRLF
                ++ buildHTML (ascii "404 Not Found") (ascii "Page not found")]) := by
  have key : (findSubmatch requestPattern line).isSome = true →
      ∃ pre t a b, line = pre ++ requestLine t a b
        ∧ isDigit a = true ∧ isDigit b = true ∧ (t = [] ∨ IsNameDotExt t) := by
    intro hs
    obtain ⟨m, hm⟩ := Option.isSome_iff_exists.1 hs
    obtain ⟨pre, s, hsplit, hat⟩ := findSubmatch_some _ _ _ hm
    obtain ⟨t, a, b, rest, hs', ha, hb, ht, _, _⟩ := matchAt_sound _ _ hat
    have hrest : rest = [] :=
      line_match_at_end line pre rest t a b hline (by rw [hsplit, hs', List.append_assoc])
    exact ⟨pre, t, a, b, by rw [hsplit, hs', hrest, List.append_nil], ha, hb, ht⟩
  refine ⟨key, ?_⟩
  intro hno
  have hnone : findSubmatch requestPattern line = none := by
    cases hf : findSubmatch requestPattern line with
    | none => rfl
    | some m => exact absurd (key (by rw [hf]; rfl)) hno
  rw [handleConnection_parse_failure env line hread hnone]
  exact ⟨hnone, by simp only [fileReads, fileReads_tail], by simp only [writes, writes_tail]⟩

/-- C4, amended, at the line `xGET / HTTP/1.1\r\n`: the match succeeds and the line ends
with the request shape after the byte `x`. -/
theorem line_ending_shape_witness :
    IsLine (ascii "xGET / HTTP/1.1\r\n")
    ∧ ((findSubmatch requestPattern (ascii "xGET / HTTP/1.1\r\n")).isSome = true →
        ∃ pre t a b, ascii "xGET / HTTP/1.1\r\n" = pre ++ requestLine t a b
          ∧ isDigit a = true ∧ isDigit b = true ∧ (t = [] ∨ IsNameDotExt t)) :=
  ⟨⟨ascii "xGET / HTTP/1.1\r", by decide, by decide⟩,
    (line_ending_shape (Env.mk (some (ascii "xGET / HTTP/1.1\r\n")) (fun _ => none) false false)
      (ascii "xGET / HTTP/1.1\r\n") ⟨ascii "xGET / HTTP/1.1\r", by decide, by decide⟩ rfl).1⟩

/-- C5: when the match fails on the line read, the handler reads no file and writes
exactly `buildHTTPHeader(404, "1.1", "text/html")`, CRLF, and
`buildHTML("404 Not Found", "Page not found")`; the response starts with
`HTTP/1.1 404 File Not Found\r\nContent-Type: text/html\r\n\r\n` whatever the line held. -/
theorem parse_failure_response (env : Env) (line : GoString)
    (hread : env.readString = some line) (hfail : findSubmatch requestPattern line = none) :
    fileReads (handleConnection env) = []
    ∧ writes (handleConnection env)
        = [buildHTTPHeader 404 (ascii "1.1") (ascii "text/html") ++ CRLF
            ++ buildHTML (ascii "404 Not Found") (ascii "Page not found")]
    ∧ writes (handleConnection env)
        = [ascii "HTTP/1.1 404 File Not Found\r\nContent-Type: text/html\r\n\r\n"
            ++ buildHTML (ascii "404 Not Found") (ascii "Page not found")] := by
  rw [handleConnection_parse_failure env line hread hfail]
  refine ⟨by simp only [fileReads, fileReads_tail], by simp only [writes, writes_tail], ?_⟩
  simp only [writes, writes_tail]
  have : buildHTTPHeader 404 (ascii "1.1") (ascii "text/html") ++ CRLF
      = ascii "HTTP/1.1 404 File Not Found\r\nContent-Type: text/html\r\n\r\n" := by decide
  rw [this]

/-- C5 at the three lines of the claim: `POST / HTTP/1.1\r\n`, `GET / HTTP/1.1\n` with no
CR, and `GET /index.html\r\n` with no `HTTP/` token all fail to match and get the fixed
response, also when the file system would serve any path. -/
theorem parse_failure_response_witness :
    (findSubmatch requestPattern (ascii "POST / HTTP/1.1\r\n") = none
      ∧ writes (handleConnection (Env.mk (some (ascii "POST / HTTP/1.1\r\n"))
          (fun _ => some (ascii "0123456789012345678901234567890123456789")) false false))
        = [ascii "HTTP/1.1 404 File Not Found\r\nContent-Type: text/html\r\n\r\n"
            ++ buildHTML (ascii "404 Not Found") (ascii "Page not found")])
    ∧ (findSubmatch requestPattern (ascii "GET / HTTP/1.1\n") = none
      ∧ writes (handleConnection (Env.mk (some (ascii "GET / HTTP/1.1\n"))
          (fun _ => some (ascii "0123456789012345678901234567890123456789")) false false))
        = [ascii "HTTP/1.1 404 File Not Found\r\nContent-Type: text/html\r\n\r\n"
            ++ buildHTML (ascii "404 Not Found") (ascii "Page not found")])
    ∧ (findSubmatch requestPattern (ascii "GET /index.html\r\n") = none
      ∧ writes (handleConnection (Env.mk (some (ascii "GET /index.html\r\n"))
          (fun _ => some (ascii "0123456789012345678901234567890123456789")) false false))
        = [ascii "HTTP/1.1 404 File Not Found\r\nContent-Type: text/html\r\n\r\n"
            ++ buildHTML (ascii "404 Not Found") (ascii "Page not found")]) :=
  ⟨⟨Option.isNone_iff_eq_none.1 (by decide),
      (parse_failure_response _ _ rfl (Option.isNone_iff_eq_none.1 (by decide))).2.2⟩,
    ⟨Option.isNone_iff_eq_none.1 (by decide),
      (parse_failure_response _ _ rfl (Option.isNone_iff_eq_none.1 (by decide))).2.2⟩,
    ⟨Option.isNone_iff_eq_none.1 (by decide),
      (parse_failure_response _ _ rfl (Option.isNone_iff_eq_none.1 (by decide))).2.2⟩⟩

/-- C6: when the line parses with version `v` (group 4) and reading the resolved file
fails, the handler writes exactly `buildHTTPHeader(404, v, "text/html")`, CRLF, and
`buildHTML("404 Not Found", "File not found")`; the status line is
`HTTP/v 404 File Not Found`, with the version of the request. -/
theorem read_failure_response (env : Env) (line : GoString) (m : Submatch)
    (hread : env.readString = some line) (hm : findSubmatch requestPattern line = some m)
    (hfile : env.readFile (if m 1 = [] then ascii "index.html" else m 1) = none) :
    writes (handleConnection env)
        = [buildHTTPHeader 404 (m 4) (ascii "text/html") ++ CRLF
            ++ buildHTML (ascii "404 Not Found") (ascii "File not found")]
    ∧ buildHTTPHeader 404 (m 4) (ascii "text/html")
        = ascii "HTTP/" ++ m 4 ++ ascii " 404 File Not Found\r\nContent-Type: text/html\r\n" := by
  rw [handleConnection_read_failure env line m hread hm hfile]
  refine ⟨by simp only [writes, writes_tail], ?_⟩
  rw [buildHTTPHeader_closed]
  have h404 : formatDecimal 404 = ascii "404" := by decide
  simp [h404, ascii, CRLF, Nat.toUInt8]

/-- C6 at `GET /missing.html HTTP/1.1\r\n` with no such file: the response is the status
line `HTTP/1.1 404 File Not Found`, the content type `text/html`, the blank line and the
"File not found" page. -/
theorem read_failure_response_witness :
    writes (handleConnection (Env.mk (some (ascii "GET /missing.html HTTP/1.1\r\n"))
        (fun _ => none) false false))
      = [ascii "HTTP/1.1 404 File Not Found\r\nContent-Type: text/html\r\n\r\n"
          ++ buildHTML (ascii "404 Not Found") (ascii "File not found")] :=
  (read_failure_response
      (Env.mk (some (ascii "GET /missing.html HTTP/1.1\r\n")) (fun _ => none) false false)
      (ascii "GET /missing.html HTTP/1.1\r\n")
      (Function.update (Function.update (Function.update (Function.update
          (Function.update (fun _ => []) 2 (ascii "missing")) 3 (ascii "html")) 1
          (ascii "missing" ++ 46 :: ascii "html")) 4 [49, 46, 49]) 0
          (requestLine (ascii "missing" ++ 46 :: ascii "html") 49 49))
      rfl
      (findSubmatch_of_matchAt _ _ _
        (matchAt_requestLine_file (ascii "missing") (ascii "html") 49 49 []
          (by decide) (by decide) rfl rfl))
      rfl).1.trans (by decide)

/-- C7: `buildHTTPHeader(statusCode, httpVersion, contentType)` is `HTTP/`, the version, a
space, the decimal status code, a space, the reason phrase, CRLF, `Content-Type: `, the
content type, CRLF and nothing more; the reason is `OK` for 200, `File Not Found` for 404,
`Internal Server Error` for 500 and `Status Code Not Implemented` for any other code,
whose number is still written.  For every integer the status code is written as its
decimal numeral: the text `toString` gives, that is `-` exactly for a negative code, then
one or more digits with no leading zero (but for `0` itself) whose value is the absolute
value of the code. -/
theorem header_format (statusCode : Int) (httpVersion contentType : GoString) :
    buildHTTPHeader statusCode httpVersion contentType
        = ascii "HTTP/" ++ httpVersion ++ ascii " " ++ formatDecimal statusCode ++ ascii " "
            ++ (if statusCode = 200 then ascii "OK"
                else if statusCode = 404 then ascii "File Not Found"
                else if statusCode = 500 then ascii "Internal Server Error"
                else ascii "Status Code Not Implemented")
            ++ CRLF ++ ascii "Content-Type: " ++ contentType ++ CRLF
    ∧ buildHTTPHeader 200 httpVersion contentType
        = ascii "HTTP/" ++ httpVersion ++ ascii " 200 OK\r\nContent-Type: " ++ contentType
            ++ ascii "\r\n"
    ∧ buildHTTPHeader 404 httpVersion contentType
        = ascii "HTTP/" ++ httpVersion ++ ascii " 404 File Not Found\r\nContent-Type: "
            ++ contentType ++ ascii "\r\n"
    ∧ buildHTTPHeader 500 httpVersion contentType
        = ascii "HTTP/" ++ httpVersion ++ ascii " 500 Internal Server Error\r\nContent-Type: "
            ++ contentType ++ ascii "\r\n"
    ∧ buildHTTPHeader 418 httpVersion contentType
        = ascii "HTTP/" ++ httpVersion ++ ascii " 418 Status Code Not Implemented\r\nContent-Type: "
            ++ contentType ++ ascii "\r\n"
    ∧ buildHTTPHeader (-1) httpVersion contentType
        = ascii "HTTP/" ++ httpVersion ++ ascii " -1 Status Code Not Implemented\r\nContent-Type: "
            ++ contentType ++ ascii "\r\n"
    ∧ buildHTTPHeader statusCode httpVersion contentType
        = ascii "HTTP/" ++ httpVersion ++ ascii " " ++ ascii (toString statusCode) ++ ascii " "
            ++ (if statusCode = 200 then ascii "OK"
                else if statusCode = 404 then ascii "File Not Found"
                else if statusCode = 500 then ascii "Internal Server Error"
                else ascii "Status Code Not Implemented")
            ++ CRLF ++ ascii "Content-Type: " ++ contentType ++ CRLF
    ∧ formatDecimal statusCode = ascii (toString statusCode)
    ∧ (∃ ds, formatDecimal statusCode = (if statusCode < 0 then ascii "-" else []) ++ ds
        ∧ ds ≠ [] ∧ (∀ b ∈ ds, isDigit b = true) ∧ (ds.head? = some 48 → ds = [48])
        ∧ decimalValue ds = statusCode.natAbs) := by
  have h200 : formatDecimal 200 = ascii "200" := by decide
  have h404 : formatDecimal 404 = ascii "404" := by decide
  have h500 : formatDecimal 500 = ascii "500" := by decide
  have h418 : formatDecimal 418 = ascii "418" := by decide
  have hneg : formatDecimal (-1) = ascii "-1" := by decide
  refine ⟨buildHTTPHeader_closed _ _ _, ?_, ?_, ?_, ?_, ?_, ?_,
    formatDecimal_eq_toString statusCode, formatDecimal_numeral statusCode⟩
  · rw [buildHTTPHeader_closed, h200]; simp [ascii, CRLF, Nat.toUInt8]
  · rw [buildHTTPHeader_closed, h404]; simp [ascii, CRLF, Nat.toUInt8]
  · rw [buildHTTPHeader_closed, h500]; simp [ascii, CRLF, Nat.toUInt8]
  · rw [buildHTTPHeader_closed, h418]; simp [ascii, CRLF, Nat.toUInt8]
  · rw [buildHTTPHeader_closed, hneg]; simp [ascii, CRLF, Nat.toUInt8]
  · rw [buildHTTPHeader_closed, formatDecimal_eq_toString]

/-- C8: `getContentType` is defined on every string, and its value is fixed by the part
`ext` of the path after its last `.` (the whole path when it has no dot), compared exactly:
`htm`, `html` give `text/html`; `ram`, `ra` give `audio/x-pn-realaudio`; `jpg`, `jpeg`
give `image/jpeg`; any other extension gives `application/octet-stream`. -/
theorem content_type_table (filePath ext : GoString) (hdot : (46 : Byte) ∉ ext)
    (hext : filePath = ext ∨ ∃ stem, filePath = stem ++ 46 :: ext) :
    (∀ s : GoString, ∃ ct, getContentType s = some ct)
    ∧ (ext = ascii "htm" ∨ ext = ascii "html" →
        getContentType filePath = some (ascii "text/html"))
    ∧ (ext = ascii "ram" ∨ ext = ascii "ra" →
        getContentType filePath = some (ascii "audio/x-pn-realaudio"))
    ∧ (ext = ascii "jpg" ∨ ext = ascii "jpeg" →
        getContentType filePath = some (ascii "image/jpeg"))
    ∧ (ext ∉ [ascii "htm", ascii "html", ascii "ram", ascii "ra", ascii "jpg", ascii "jpeg"] →
        getContentType filePath = some (ascii "application/octet-stream")) := by
  have h := getContentType_of_ext filePath ext hdot hext
  refine ⟨getContentType_isSome, ?_, ?_, ?_, ?_⟩
  · intro he
    rw [h, if_pos he]
  · intro he
    rw [h]
    rcases he with he | he <;> subst he <;> decide
  · intro he
    rw [h]
    rcases he with he | he <;> subst he <;> decide
  · intro he
    simp only [List.mem_cons, List.mem_singleton, List.not_mem_nil, or_false, not_or] at he
    rw [h]
    simp [he.1, he.2.1, he.2.2.1, he.2.2.2.1, he.2.2.2.2.1, he.2.2.2.2.2]

/-- C8 at the examples of the claim: `.html`, `.jpg`, `.ra`, the upper-case `.HTML`,
`.xyz`, a path with no dot and a path ending in a dot. -/
theorem content_type_table_witness :
    getContentType (ascii "index.html") = some (ascii "text/html")
    ∧ getContentType (ascii "a.b.jpg") = some (ascii "image/jpeg")
    ∧ getContentType (ascii "song.ra") = some (ascii "audio/x-pn-realaudio")
    ∧ getContentType (ascii "index.HTML") = some (ascii "application/octet-stream")
    ∧ getContentType (ascii "data.xyz") = some (ascii "application/octet-stream")
    ∧ getContentType (ascii "html") = some (ascii "text/html")
    ∧ getContentType (ascii "name.") = some (ascii "application/octet-stream") :=
  ⟨(content_type_table (ascii "index.html") (ascii "html") (by decide)
      (Or.inr ⟨ascii "index", by decide⟩)).2.1 (Or.inr rfl),
    (content_type_table (ascii "a.b.jpg") (ascii "jpg") (by decide)
      (Or.inr ⟨ascii "a.b", by decide⟩)).2.2.2.1 (Or.inl rfl),
    (content_type_table (ascii "song.ra") (ascii "ra") (by decide)
      (Or.inr ⟨ascii "song", by decide⟩)).2.2.1 (Or.inr rfl),
    (content_type_table (ascii "index.HTML") (ascii "HTML") (by decide)
      (Or.inr ⟨ascii "index", by decide⟩)).2.2.2.2 (by decide),
    (content_type_table (ascii "data.xyz") (ascii "xyz") (by decide)
      (Or.inr ⟨ascii "data", by decide⟩)).2.2.2.2 (by decide),
    (content_type_table (ascii "html") (ascii "html") (by decide)
      (Or.inl rfl)).2.1 (Or.inr rfl),
    (content_type_table (ascii "name.") [] (by decide)
      (Or.inr ⟨ascii "name", by decide⟩)).2.2.2.2 (by decide)⟩

/-- C9: `buildHTML(title, message)` is the template with `title` inside `<title>` and
`<h1>` and `message` as the body text, all three verbatim, with the leading and trailing
newlines and tabs of the template removed and one CRLF appended; it begins with `<html>`
and ends with `</html>\r\n`. -/
theorem html_page_format (title message : GoString) :
    buildHTML title message
        = ascii "<html>\n\t\t<head>\n\t\t\t<title>" ++ title
            ++ ascii "</title>\n\t\t</head>\n\t\t<body>\n\t\t\t<h1>" ++ title
            ++ ascii "</h1>\n\t\t\t" ++ message ++ ascii "\n\t\t</body>\n\t</html>\r\n"
    ∧ (∃ rest, buildHTML title message = ascii "<html>" ++ rest)
    ∧ (∃ init, buildHTML title message = init ++ ascii "</html>" ++ CRLF) := by
  refine ⟨buildHTML_closed title message, ?_, ?_⟩
  · exact ⟨ascii "\n\t\t<head>\n\t\t\t<title>" ++ title
        ++ ascii "</title>\n\t\t</head>\n\t\t<body>\n\t\t\t<h1>" ++ title
        ++ ascii "</h1>\n\t\t\t" ++ message ++ ascii "\n\t\t</body>\n\t</html>\r\n",
      by rw [buildHTML_closed]; simp [ascii]⟩
  · exact ⟨ascii "<html>\n\t\t<head>\n\t\t\t<title>" ++ title
        ++ ascii "</title>\n\t\t</head>\n\t\t<body>\n\t\t\t<h1>" ++ title
        ++ ascii "</h1>\n\t\t\t" ++ message ++ ascii "\n\t\t</body>\n\t",
      by rw [buildHTML_closed]; simp [ascii, CRLF]⟩

/-- C10: when `httpVersion` and `contentType` hold no CR and no LF byte, cutting
`buildHTTPHeader(statusCode, httpVersion, contentType)` followed by CRLF at every CRLF gives
exactly three lines and no bytes left over: a non-empty status line, the non-empty line
`Content-Type: ` ++ contentType, and one empty line. -/
theorem header_round_trip (statusCode : Int) (httpVersion contentType : GoString)
    (hv : ∀ b ∈ httpVersion, b ≠ 13 ∧ b ≠ 10) (hct : ∀ b ∈ contentType, b ≠ 13 ∧ b ≠ 10) :
    ∃ statusLine,
      splitLines (buildHTTPHeader statusCode httpVersion contentType ++ CRLF)
        = ([statusLine, ascii "Content-Type: " ++ contentType, []], [])
      ∧ statusLine ≠ [] ∧ ascii "Content-Type: " ++ contentType ≠ []
      ∧ buildHTTPHeader statusCode httpVersion contentType
          = statusLine ++ CRLF ++ (ascii "Content-Type: " ++ contentType) ++ CRLF := by
  refine ⟨ascii "HTTP/" ++ httpVersion ++ ascii " " ++ formatDecimal statusCode ++ ascii " "
          ++ (if statusCode = 200 then ascii "OK"
              else if statusCode = 404 then ascii "File Not Found"
              else if statusCode = 500 then ascii "Internal Server Error"
              else ascii "Status Code Not Implemented"), ?_, ?_, ?_, ?_⟩
  · have h1 : (13 : Byte) ∉ ascii "HTTP/" ++ httpVersion ++ ascii " " ++ formatDecimal statusCode
          ++ ascii " " ++ (if statusCode = 200 then ascii "OK"
              else if statusCode = 404 then ascii "File Not Found"
              else if statusCode = 500 then ascii "Internal Server Error"
              else ascii "Status Code Not Implemented") := by
      intro hm
      simp only [List.mem_append] at hm
      rcases hm with (((hm | hm) | hm) | hm) | hm
      · rcases hm with hm | hm
        · revert hm; decide
        · exact (hv _ hm).1 rfl
      · revert hm; decide
      · rcases formatDecimal_bytes _ _ hm with h | h
        · revert h; decide
        · exact isDigit_ne_cr _ h rfl
      · revert hm; decide
      · split_ifs at hm <;> revert hm <;> decide
    have h2 : (13 : Byte) ∉ ascii "Content-Type: " ++ contentType := by
      intro hm
      rcases List.mem_append.1 hm with hm | hm
      · revert hm; decide
      · exact (hct _ hm).1 rfl
    rw [buildHTTPHeader_closed]
    have e : ∀ x : GoString, x ++ CRLF ++ ascii "Content-Type: " ++ contentType ++ CRLF ++ CRLF
        = x ++ 13 :: 10 :: ((ascii "Content-Type: " ++ contentType) ++ 13 :: 10 :: ([] ++ 13 :: 10 :: [])) := by
      intro x; simp [CRLF, ascii, Nat.toUInt8]
    rw [e _, splitLines_line _ _ h1, splitLines_line _ _ h2, splitLines_line _ _ (by simp)]
    rfl
  · simp [ascii]
  · simp [ascii]
  · rw [buildHTTPHeader_closed]; simp

/-- C10 at `buildHTTPHeader(200, "1.1", "text/html")`. -/
theorem header_round_trip_witness :
    (∀ b ∈ ascii "1.1", b ≠ 13 ∧ b ≠ 10) ∧ (∀ b ∈ ascii "text/html", b ≠ 13 ∧ b ≠ 10)
    ∧ ∃ statusLine,
        splitLines (buildHTTPHeader 200 (ascii "1.1") (ascii "text/html") ++ CRLF)
          = ([statusLine, ascii "Content-Type: " ++ ascii "text/html", []], [])
        ∧ statusLine ≠ [] ∧ ascii "Content-Type: " ++ ascii "text/html" ≠ []
        ∧ buildHTTPHeader 200 (ascii "1.1") (ascii "text/html")
            = statusLine ++ CRLF ++ (ascii "Content-Type: " ++ ascii "text/html") ++ CRLF :=
  ⟨by decide, by decide,
    header_round_trip 200 (ascii "1.1") (ascii "text/html") (by decide) (by decide)⟩

/-- C11: when reading the request line fails, `handleConnection` goes straight to the close
of the connection: its whole trace is the close (and the fatal exit if the close itself
fails); nothing is written, the pattern is not run and no file is read. -/
theorem read_error_closes (env : Env) (hread : env.readString = none) :
    handleConnection env = (if env.closeFails then [Event.close, Event.fatal] else [Event.close])
    ∧ writes (handleConnection env) = []
    ∧ parses (handleConnection env) = []
    ∧ fileReads (handleConnection env) = []
    ∧ (handleConnection env).head? = some Event.close := by
  rw [handleConnection_read_error env hread]
  refine ⟨rfl, writes_closeConnection env, parses_closeConnection env,
    fileReads_closeConnection env, ?_⟩
  cases hc : env.closeFails <;> simp [closeConnection, hc]

/-- C11 for a connection whose read fails while the file system would serve any path. -/
theorem read_error_closes_witness :
    handleConnection (Env.mk none (fun _ => some (ascii "<p>hi</p>")) false false)
        = [Event.close]
    ∧ writes (handleConnection (Env.mk none (fun _ => some (ascii "<p>hi</p>")) false false))
        = [] :=
  ⟨(read_error_closes (Env.mk none (fun _ => some (ascii "<p>hi</p>")) false false) rfl).1,
    (read_error_closes (Env.mk none (fun _ => some (ascii "<p>hi</p>")) false false) rfl).2.1⟩

/-- C12: let `q` be the text between `GET ` and ` HTTP/a.b\r\n`, with digits `a`, `b` and no
whitespace byte in `q`.  If `q` is `/` followed by a non-empty `p` that is not word
characters, one dot, word characters, or if `q` does not start with `/`, the match fails,
no file is read and the handler writes the parse-failure 404 response. -/
theorem malformed_path_rejected (env : Env) (q : GoString) (a b : Byte)
    (hws : ∀ c ∈ q, c ≠ 32 ∧ c ≠ 9 ∧ c ≠ 10 ∧ c ≠ 11 ∧ c ≠ 12 ∧ c ≠ 13)
    (ha : isDigit a = true) (hb : isDigit b = true)
    (hq : (∃ p, q = 47 :: p ∧ p ≠ [] ∧ ¬ IsNameDotExt p) ∨ q.head? ≠ some 47)
    (hread : env.readString
      = some (ascii "GET " ++ q ++ ascii " HTTP/" ++ [a] ++ ascii "." ++ [b] ++ ascii "\r\n")) :
    findSubmatch requestPattern
        (ascii "GET " ++ q ++ ascii " HTTP/" ++ [a] ++ ascii "." ++ [b] ++ ascii "\r\n") = none
    ∧ fileReads (handleConnection env) = []
    ∧ writes (handleConnection env)
        = [buildHTTPHeader 404 (ascii "1.1") (ascii "text/html") ++ CRLF
            ++ buildHTML (ascii "404 Not Found") (ascii "Page not found")] := by
  have hline : ascii "GET " ++ q ++ ascii " HTTP/" ++ [a] ++ ascii "." ++ [b] ++ ascii "\r\n"
      = ascii "GET " ++ q ++ ascii " HTTP/" ++ [a, 46, b] ++ CRLF := by
    simp [CRLF, ascii, Nat.toUInt8]
  have hnone : findSubmatch requestPattern
      (ascii "GET " ++ q ++ ascii " HTTP/" ++ [a] ++ ascii "." ++ [b] ++ ascii "\r\n") = none := by
    rw [hline]
    apply no_match_general q a b (fun h => (hws 32 h).1 rfl) (fun h => (hws 10 h).2.2.1 rfl) ha hb
    intro t hqt hshape
    rcases hq with ⟨p, hp, hne, hnot⟩ | hq
    · have : p = t := by
        rw [hp] at hqt
        exact (List.cons.inj hqt).2
      subst this
      rcases hshape with h | h
      · exact hne h
      · exact hnot h
    · apply hq
      rw [hqt]; rfl
  rw [handleConnection_parse_failure env _ hread hnone]
  exact ⟨hnone, by simp only [fileReads, fileReads_tail], by simp only [writes, writes_tail]⟩
/-- C12 at the paths of the claim: `/a.b.c` (two dots), `/abc` (no extension), `/abc.`
(empty extension), `/a/b.c` and `/a?b.c` (a byte that is no word character), and
`GET a.b HTTP/1.1\r\n` without the leading slash. -/
theorem malformed_path_rejected_witness :
    findSubmatch requestPattern
        (ascii "GET " ++ ascii "/a.b.c" ++ ascii " HTTP/" ++ [49] ++ ascii "." ++ [49]
          ++ ascii "\r\n") = none
    ∧ findSubmatch requestPattern
        (ascii "GET " ++ ascii "/abc" ++ ascii " HTTP/" ++ [49] ++ ascii "." ++ [49]
          ++ ascii "\r\n") = none
    ∧ findSubmatch requestPattern
        (ascii "GET " ++ ascii "/abc." ++ ascii " HTTP/" ++ [49] ++ ascii "." ++ [49]
          ++ ascii "\r\n") = none
    ∧ findSubmatch requestPattern
        (ascii "GET " ++ ascii "/a/b.c" ++ ascii " HTTP/" ++ [49] ++ ascii "." ++ [49]
          ++ ascii "\r\n") = none
    ∧ findSubmatch requestPattern
        (ascii "GET " ++ ascii "/a?b.c" ++ ascii " HTTP/" ++ [49] ++ ascii "." ++ [49]
          ++ ascii "\r\n") = none
    ∧ findSubmatch requestPattern
        (ascii "GET " ++ ascii "a.b" ++ ascii " HTTP/" ++ [49] ++ ascii "." ++ [49]
          ++ ascii "\r\n") = none
    ∧ writes (handleConnection (Env.mk
        (some (ascii "GET " ++ ascii "a.b" ++ ascii " HTTP/" ++ [49] ++ ascii "." ++ [49]
          ++ ascii "\r\n")) (fun _ => none) false false))
        = [buildHTTPHeader 404 (ascii "1.1") (ascii "text/html") ++ CRLF
            ++ buildHTML (ascii "404 Not Found") (ascii "Page not found")] :=
  ⟨(malformed_path_rejected (Env.mk (some _) (fun _ => none) false false) (ascii "/a.b.c") 49 49
      (by decide) rfl rfl
      (Or.inl ⟨ascii "a.b.c", rfl, by decide,
        fun h => absurd (nameDotExt_props _ h).2.1 (by decide)⟩) rfl).1,
    (malformed_path_rejected (Env.mk (some _) (fun _ => none) false false) (ascii "/abc") 49 49
      (by decide) rfl rfl
      (Or.inl ⟨ascii "abc", rfl, by decide,
        fun h => absurd (nameDotExt_props _ h).2.1 (by decide)⟩) rfl).1,
    (malformed_path_rejected (Env.mk (some _) (fun _ => none) false false) (ascii "/abc.") 49 49
      (by decide) rfl rfl
      (Or.inl ⟨ascii "abc.", rfl, by decide,
        fun h => (nameDotExt_props _ h).2.2.2.1 (by decide)⟩) rfl).1,
    (malformed_path_rejected (Env.mk (some _) (fun _ => none) false false) (ascii "/a/b.c") 49 49
      (by decide) rfl rfl
      (Or.inl ⟨ascii "a/b.c", rfl, by decide,
        fun h => absurd ((nameDotExt_props _ h).2.2.2.2 47 (by decide)) (by decide)⟩) rfl).1,
    (malformed_path_rejected (Env.mk (some _) (fun _ => none) false false) (ascii "/a?b.c") 49 49
      (by decide) rfl rfl
      (Or.inl ⟨ascii "a?b.c", rfl, by decide,
        fun h => absurd ((nameDotExt_props _ h).2.2.2.2 63 (by decide)) (by decide)⟩) rfl).1,
    (malformed_path_rejected (Env.mk (some _) (fun _ => none) false false) (ascii "a.b") 49 49
      (by decide) rfl rfl (Or.inr (by decide)) rfl).1,
    (malformed_path_rejected (Env.mk (some _) (fun _ => none) false false) (ascii "a.b") 49 49
      (by decide) rfl rfl (Or.inr (by decide)) rfl).2.2⟩
/-- C13: every byte string `handleConnection` writes is `HTTP/` ++ v ++ ` ` ++ code ++ ` `
++ reason ++ CRLF ++ `Content-Type: ` ++ mime ++ CRLF ++ CRLF ++ body with v a digit, a
dot and a digit, (code, reason) either (`200`, `OK`) or (`404`, `File Not Found`), and
mime one of the four content types; cut at CRLF, its first two lines are the status line
and the `Content-Type` line and its third line is the blank line, so no further header
line comes before the blank line. -/
theorem response_format (env : Env) (r : GoString) (h : r ∈ writes (handleConnection env)) :
    ∃ (a b : Byte) (code reason mime body : GoString),
      r = ascii "HTTP/" ++ [a, 46, b] ++ ascii " " ++ code ++ ascii " " ++ reason ++ CRLF
            ++ ascii "Content-Type: " ++ mime ++ CRLF ++ CRLF ++ body
      ∧ isDigit a = true ∧ isDigit b = true
      ∧ ((code = ascii "200" ∧ reason = ascii "OK")
          ∨ (code = ascii "404" ∧ reason = ascii "File Not Found"))
      ∧ mime ∈ [ascii "text/html", ascii "audio/x-pn-realaudio", ascii "image/jpeg",
          ascii "application/octet-stream"]
      ∧ splitLines r
          = ((ascii "HTTP/" ++ [a, 46, b] ++ ascii " " ++ code ++ ascii " " ++ reason)
              :: (ascii "Content-Type: " ++ mime) :: [] :: (splitLines body).1,
             (splitLines body).2) := by
  obtain ⟨code, a, b, mime, body, hr, hcode, ha, hb, hmime, _, _⟩ :=
    written_response_parts env r h
  have h200 : formatDecimal 200 = ascii "200" := by decide
  have h404 : formatDecimal 404 = ascii "404" := by decide
  have hct := contentTypeLine_no_cr mime hmime
  rcases hcode with hc | hc
  · subst hc
    have hr' : r = ascii "HTTP/" ++ [a, 46, b] ++ ascii " " ++ ascii "200" ++ ascii " "
        ++ ascii "OK" ++ CRLF ++ ascii "Content-Type: " ++ mime ++ CRLF ++ CRLF ++ body := by
      rw [hr, response_closed, h200]; simp
    refine ⟨a, b, ascii "200", ascii "OK", mime, body, hr', ha, hb, Or.inl ⟨rfl, rfl⟩,
      hmime, ?_⟩
    have hsl := statusLine_no_cr a b (ascii "200") (ascii "OK") ha hb (by decide) (by decide)
    rw [hr', ← splitLines_header_block _ _ _ hsl hct]
    simp
  · subst hc
    have hr' : r = ascii "HTTP/" ++ [a, 46, b] ++ ascii " " ++ ascii "404" ++ ascii " "
        ++ ascii "File Not Found" ++ CRLF ++ ascii "Content-Type: " ++ mime ++ CRLF ++ CRLF
        ++ body := by
      rw [hr, response_closed, h404]; simp
    refine ⟨a, b, ascii "404", ascii "File Not Found", mime, body, hr', ha, hb,
      Or.inr ⟨rfl, rfl⟩, hmime, ?_⟩
    have hsl := statusLine_no_cr a b (ascii "404") (ascii "File Not Found") ha hb
      (by decide) (by decide)
    rw [hr', ← splitLines_header_block _ _ _ hsl hct]
    simp

/-- C13 at the response to `GET /missing.html HTTP/1.1\r\n` when the file is missing. -/
theorem response_format_witness :
    (ascii "HTTP/1.1 404 File Not Found\r\nContent-Type: text/html\r\n\r\n"
        ++ buildHTML (ascii "404 Not Found") (ascii "File not found"))
      ∈ writes (handleConnection (Env.mk (some (ascii "GET /missing.html HTTP/1.1\r\n"))
          (fun _ => none) false false))
    ∧ ∃ (a b : Byte) (code reason mime body : GoString),
        (ascii "HTTP/1.1 404 File Not Found\r\nContent-Type: text/html\r\n\r\n"
            ++ buildHTML (ascii "404 Not Found") (ascii "File not found"))
          = ascii "HTTP/" ++ [a, 46, b] ++ ascii " " ++ code ++ ascii " " ++ reason ++ CRLF
              ++ ascii "Content-Type: " ++ mime ++ CRLF ++ CRLF ++ body
        ∧ isDigit a = true ∧ isDigit b = true
        ∧ ((code = ascii "200" ∧ reason = ascii "OK")
            ∨ (code = ascii "404" ∧ reason = ascii "File Not Found"))
        ∧ mime ∈ [ascii "text/html", ascii "audio/x-pn-realaudio", ascii "image/jpeg",
            ascii "application/octet-stream"]
        ∧ splitLines (ascii "HTTP/1.1 404 File Not Found\r\nContent-Type: text/html\r\n\r\n"
              ++ buildHTML (ascii "404 Not Found") (ascii "File not found"))
            = ((ascii "HTTP/" ++ [a, 46, b] ++ ascii " " ++ code ++ ascii " " ++ reason)
                :: (ascii "Content-Type: " ++ mime) :: [] :: (splitLines body).1,
               (splitLines body).2) :=
  ⟨by decide,
    response_format (Env.mk (some (ascii "GET /missing.html HTTP/1.1\r\n")) (fun _ => none)
      false false) _ (by decide)⟩
/-- C14: for a parsed request whose file is read with content `c`, the preview slice of
the first `DefaultContentPreviewLength` = 30 bytes (source line 140) goes out of range, and
nothing is written, exactly when `c` has fewer than 30 bytes; for 30 bytes or more the
handler writes the 200 response with the content type of the path and the bytes of `c`. -/
theorem preview_slice (env : Env) (line content : GoString) (m : Submatch)
    (hread : env.readString = some line) (hm : findSubmatch requestPattern line = some m)
    (hfile : env.readFile (resolvedPath m) = some content) :
    DefaultContentPreviewLength = 30
    ∧ (Event.panicked ∈ handleConnection env ↔ content.length < DefaultContentPreviewLength)
    ∧ (writes (handleConnection env) = [] ↔ content.length < DefaultContentPreviewLength)
    ∧ (content.length < DefaultContentPreviewLength →
        handleConnection env
          = [Event.parse line, Event.readFile (resolvedPath m), Event.panicked])
    ∧ (DefaultContentPreviewLength ≤ content.length →
        ∃ contentType, getContentType (resolvedPath m) = some contentType
          ∧ writes (handleConnection env)
              = [buildHTTPHeader 200 (m 4) contentType ++ CRLF ++ content]) := by
  have hshort : content.length < DefaultContentPreviewLength →
      handleConnection env
        = [Event.parse line, Event.readFile (resolvedPath m), Event.panicked] :=
    handleConnection_short_content env line content m hread hm hfile
  have hlong : DefaultContentPreviewLength ≤ content.length →
      ∃ contentType, getContentType (resolvedPath m) = some contentType
        ∧ handleConnection env
          = Event.parse line :: Event.readFile (resolvedPath m) ::
            Event.write (buildHTTPHeader 200 (m 4) contentType ++ CRLF ++ content) ::
            (if env.writeFails then [Event.fatal] else closeConnection env) :=
    handleConnection_success env line content m hread hm hfile
  refine ⟨rfl, ?_, ?_, hshort, ?_⟩
  · constructor
    · intro hp
      by_contra hlen
      obtain ⟨ct, _, hc⟩ := hlong (Nat.not_lt.1 hlen)
      rw [hc] at hp
      simp only [List.mem_cons] at hp
      rcases hp with hp | hp | hp | hp
      · exact absurd hp (by simp)
      · exact absurd hp (by simp)
      · exact absurd hp (by simp)
      · exact panicked_not_mem_tail env hp
    · intro hlen
      rw [hshort hlen]; simp
  · constructor
    · intro hw
      by_contra hlen
      obtain ⟨ct, _, hc⟩ := hlong (Nat.not_lt.1 hlen)
      rw [hc] at hw
      simp [writes] at hw
    · intro hlen
      rw [hshort hlen]; simp [writes]
  · intro hlen
    obtain ⟨ct, hct, hc⟩ := hlong hlen
    exact ⟨ct, hct, by rw [hc]; simp only [writes, writes_tail]⟩

/-- C15: every byte string `handleConnection` writes is a header built by
`buildHTTPHeader`, CRLF, and a body; the header is not empty, and the body, an error page
or the content of a file, has 30 bytes or more, so it is never empty. -/
theorem response_nonempty (env : Env) (r : GoString) (h : r ∈ writes (handleConnection env)) :
    ∃ header body, r = header ++ CRLF ++ body
      ∧ header ≠ [] ∧ body ≠ [] ∧ DefaultContentPreviewLength ≤ body.length
      ∧ (∃ (code : Int) (version mime : GoString), header = buildHTTPHeader code version mime)
      ∧ (body = buildHTML (ascii "404 Not Found") (ascii "Page not found")
          ∨ body = buildHTML (ascii "404 Not Found") (ascii "File not found")
          ∨ ∃ path, env.readFile path = some body) := by
  obtain ⟨code, a, b, mime, body, hr, _, _, _, _, hlen, hbody⟩ :=
    written_response_parts env r h
  refine ⟨buildHTTPHeader code [a, 46, b] mime, body, hr, ?_, ?_, hlen, ⟨code, _, mime, rfl⟩,
    hbody⟩
  · rw [buildHTTPHeader_closed]; simp [ascii]
  · intro hb
    rw [hb, DefaultContentPreviewLength] at hlen
    simp at hlen
/-- C14 at `GET /index.html HTTP/1.1\r\n`: with the 9-byte content `<p>hi</p>` nothing is
written, with a 40-byte content the 200 response is. -/
theorem preview_slice_witness :
    (∃ m, findSubmatch requestPattern (ascii "GET /index.html HTTP/1.1\r\n") = some m
      ∧ (ascii "<p>hi</p>").length < DefaultContentPreviewLength
      ∧ (writes (handleConnection (Env.mk (some (ascii "GET /index.html HTTP/1.1\r\n"))
            (fun _ => some (ascii "<p>hi</p>")) false false)) = []
          ↔ (ascii "<p>hi</p>").length < DefaultContentPreviewLength))
    ∧ (∃ m, findSubmatch requestPattern (ascii "GET /index.html HTTP/1.1\r\n") = some m
      ∧ DefaultContentPreviewLength ≤ (ascii "0123456789012345678901234567890123456789").length
      ∧ ∃ contentType, getContentType (resolvedPath m) = some contentType
          ∧ writes (handleConnection (Env.mk (some (ascii "GET /index.html HTTP/1.1\r\n"))
              (fun _ => some (ascii "0123456789012345678901234567890123456789")) false false))
            = [buildHTTPHeader 200 (m 4) contentType ++ CRLF
                ++ ascii "0123456789012345678901234567890123456789"]) :=
  ⟨⟨_, findSubmatch_of_matchAt _ _ _
        (matchAt_requestLine_file (ascii "index") (ascii "html") 49 49 []
          (by decide) (by decide) rfl rfl),
      by decide,
      (preview_slice (Env.mk (some (ascii "GET /index.html HTTP/1.1\r\n"))
          (fun _ => some (ascii "<p>hi</p>")) false false)
        (ascii "GET /index.html HTTP/1.1\r\n") (ascii "<p>hi</p>") _ rfl
        (findSubmatch_of_matchAt _ _ _
          (matchAt_requestLine_file (ascii "index") (ascii "html") 49 49 []
            (by decide) (by decide) rfl rfl)) rfl).2.2.1⟩,
    ⟨_, findSubmatch_of_matchAt _ _ _
        (matchAt_requestLine_file (ascii "index") (ascii "html") 49 49 []
          (by decide) (by decide) rfl rfl),
      by decide,
      (preview_slice (Env.mk (some (ascii "GET /index.html HTTP/1.1\r\n"))
          (fun _ => some (ascii "0123456789012345678901234567890123456789")) false false)
        (ascii "GET /index.html HTTP/1.1\r\n")
        (ascii "0123456789012345678901234567890123456789") _ rfl
        (findSubmatch_of_matchAt _ _ _
          (matchAt_requestLine_file (ascii "index") (ascii "html") 49 49 []
            (by decide) (by decide) rfl rfl)) rfl).2.2.2.2 (by decide)⟩⟩

/-- C15 at the response to `POST / HTTP/1.1\r\n`. -/
theorem response_nonempty_witness :
    (buildHTTPHeader 404 (ascii "1.1") (ascii "text/html") ++ CRLF
        ++ buildHTML (ascii "404 Not Found") (ascii "Page not found"))
      ∈ writes (handleConnection (Env.mk (some (ascii "POST / HTTP/1.1\r\n"))
          (fun _ => none) false false))
    ∧ ∃ header body,
        buildHTTPHeader 404 (ascii "1.1") (ascii "text/html") ++ CRLF
            ++ buildHTML (ascii "404 Not Found") (ascii "Page not found")
          = header ++ CRLF ++ body
        ∧ header ≠ [] ∧ body ≠ [] ∧ DefaultContentPreviewLength ≤ body.length
        ∧ (∃ (code : Int) (version mime : GoString),
            header = buildHTTPHeader code version mime)
        ∧ (body = buildHTML (ascii "404 Not Found") (ascii "Page not found")
            ∨ body = buildHTML (ascii "404 Not Found") (ascii "File not found")
            ∨ ∃ path, (Env.mk (some (ascii "POST / HTTP/1.1\r\n"))
                (fun _ => none) false false).readFile path = some body) :=
  ⟨by decide,
    response_nonempty (Env.mk (some (ascii "POST / HTTP/1.1\r\n")) (fun _ => none) false false)
      _ (by decide)⟩
/-- C16: for a line `s` whose only LF is its last byte, the match succeeds exactly when
`s` is some bytes `p` followed by `GET /`, `t`, ` HTTP/`, digit, `.`, digit, CRLF with `t`
empty or word characters, one dot, word characters; `p`, `t` and the digits are determined
by `s`; and the match then gives the path `t` (`index.html` for empty `t`) and the version
`a.b`, whatever `p` is. -/
theorem match_iff_line_ending (s : GoString) (hline : IsLine s) :
    ((findSubmatch requestPattern s).isSome = true ↔
        ∃ p t a b, s = p ++ requestLine t a b ∧ isDigit a = true ∧ isDigit b = true
          ∧ (t = [] ∨ IsNameDotExt t))
    ∧ (∀ p t a b p' t' a' b', (t = [] ∨ IsNameDotExt t) → (t' = [] ∨ IsNameDotExt t') →
        s = p ++ requestLine t a b → s = p' ++ requestLine t' a' b' →
        p = p' ∧ t = t' ∧ a = a' ∧ b = b')
    ∧ (∀ p t a b, s = p ++ requestLine t a b → isDigit a = true → isDigit b = true →
        (t = [] ∨ IsNameDotExt t) →
        ∃ m, findSubmatch requestPattern s = some m
          ∧ resolvedPath m = (if t = [] then ascii "index.html" else t)
          ∧ m 4 = [a, 46, b]
          ∧ ∀ env : Env, env.readString = some s →
              fileReads (handleConnection env)
                = [if t = [] then ascii "index.html" else t]) := by
  refine ⟨⟨?_, ?_⟩, ?_, ?_⟩
  · intro hs
    obtain ⟨m, hm⟩ := Option.isSome_iff_exists.1 hs
    obtain ⟨p, t, a, b, hs', ha, hb, ht, _, _⟩ := findSubmatch_line_sound s m hline hm
    exact ⟨p, t, a, b, hs', ha, hb, ht⟩
  · rintro ⟨p, t, a, b, hs, ha, hb, ht⟩
    rw [hs]
    exact findSubmatch_complete p t a b ha hb ht
  · intro p t a b p' t' a' b' ht ht' hs hs'
    exact requestLine_unique p t p' t' a b a' b' (shape_no_slash t ht) (shape_no_slash t' ht')
      (by rw [← hs, ← hs'])
  · intro p t a b hs ha hb ht
    obtain ⟨m, hm, h1, h4⟩ := findSubmatch_line_value s p t a b hline hs ha hb ht
    have hpath : resolvedPath m = (if t = [] then ascii "index.html" else t) := by
      unfold resolvedPath; rw [h1]
    refine ⟨m, hm, hpath, h4, ?_⟩
    intro env hread
    rw [fileReads_parsed env s m hread hm, ← hpath]
    rfl

/-- C16 at the line `xxGET /a.b HTTP/1.0\r\n`: it matches, and the bytes `xx` before
`GET /` leave the path `a.b` and the version `1.0`. -/
theorem match_iff_line_ending_witness :
    IsLine (ascii "xxGET /a.b HTTP/1.0\r\n")
    ∧ ((findSubmatch requestPattern (ascii "xxGET /a.b HTTP/1.0\r\n")).isSome = true ↔
        ∃ p t a b, ascii "xxGET /a.b HTTP/1.0\r\n" = p ++ requestLine t a b
          ∧ isDigit a = true ∧ isDigit b = true ∧ (t = [] ∨ IsNameDotExt t))
    ∧ ∃ m, findSubmatch requestPattern (ascii "xxGET /a.b HTTP/1.0\r\n") = some m
        ∧ resolvedPath m = (if ascii "a.b" = [] then ascii "index.html" else ascii "a.b")
        ∧ m 4 = [49, 46, 48]
        ∧ ∀ env : Env, env.readString = some (ascii "xxGET /a.b HTTP/1.0\r\n") →
            fileReads (handleConnection env)
              = [if ascii "a.b" = [] then ascii "index.html" else ascii "a.b"] :=
  ⟨⟨ascii "xxGET /a.b HTTP/1.0\r", by decide, by decide⟩,
    (match_iff_line_ending (ascii "xxGET /a.b HTTP/1.0\r\n")
      ⟨ascii "xxGET /a.b HTTP/1.0\r", by decide, by decide⟩).1,
    (match_iff_line_ending (ascii "xxGET /a.b HTTP/1.0\r\n")
      ⟨ascii "xxGET /a.b HTTP/1.0\r", by decide, by decide⟩).2.2
      (ascii "xx") (ascii "a.b") 49 48 (by decide) rfl rfl
      (Or.inr ⟨ascii "a", ascii "b", by decide, by decide, by decide⟩)⟩

/-- C17: when the match succeeds, exactly one path is passed to `readFile`; it is
`index.html` or group 1 of the match, in both cases word characters, one dot, word
characters; it is not empty, has exactly one `.`, and holds no `/`, no `\`, no space, no
NUL and no `..`. -/
theorem resolved_path_safe (env : Env) (line : GoString)
    (hread : env.readString = some line)
    (hmatch : (findSubmatch requestPattern line).isSome = true) :
    ∃ path, fileReads (handleConnection env) = [path]
      ∧ (path = ascii "index.html" ∨ IsNameDotExt path) ∧ IsNameDotExt path
      ∧ path ≠ [] ∧ path.count 46 = 1
      ∧ (47 : Byte) ∉ path ∧ (92 : Byte) ∉ path ∧ (32 : Byte) ∉ path ∧ (0 : Byte) ∉ path
      ∧ ¬ ∃ u v, path = u ++ [46, 46] ++ v := by
  obtain ⟨m, hm⟩ := Option.isSome_iff_exists.1 hmatch
  have hshape := resolvedPath_shape line m hm
  have hnde : IsNameDotExt (resolvedPath m) := by
    rcases hshape with h | h
    · rw [h]; exact index_html_shape
    · exact h
  have hp := nameDotExt_props _ hnde
  exact ⟨resolvedPath m, fileReads_parsed env line m hread hm, hshape, hnde, hp.1, hp.2.1,
    not_mem_nameDotExt _ 47 hnde (by decide) (by decide),
    not_mem_nameDotExt _ 92 hnde (by decide) (by decide),
    not_mem_nameDotExt _ 32 hnde (by decide) (by decide),
    not_mem_nameDotExt _ 0 hnde (by decide) (by decide),
    no_double_dot _ hp.2.1⟩

/-- C17 at the line `GET /a_1.tar HTTP/1.1\r\n`. -/
theorem resolved_path_safe_witness :
    (findSubmatch requestPattern (ascii "GET /a_1.tar HTTP/1.1\r\n")).isSome = true
    ∧ ∃ path, fileReads (handleConnection (Env.mk (some (ascii "GET /a_1.tar HTTP/1.1\r\n"))
          (fun _ => none) false false)) = [path]
      ∧ (path = ascii "index.html" ∨ IsNameDotExt path) ∧ IsNameDotExt path
      ∧ path ≠ [] ∧ path.count 46 = 1
      ∧ (47 : Byte) ∉ path ∧ (92 : Byte) ∉ path ∧ (32 : Byte) ∉ path ∧ (0 : Byte) ∉ path
      ∧ ¬ ∃ u v, path = u ++ [46, 46] ++ v :=
  ⟨by decide,
    resolved_path_safe (Env.mk (some (ascii "GET /a_1.tar HTTP/1.1\r\n")) (fun _ => none)
      false false) (ascii "GET /a_1.tar HTTP/1.1\r\n") rfl (by decide)⟩
/-- C18: `buildHTML(title, message)` has 91 + twice the length of `title` + the length of
`message` bytes, so 30 or more; hence on both 404 paths, the failed match and the failed
file read, the 30-byte preview of the body is in range: the handler does not stop at it
and writes its one response, the 404 header, CRLF and the error page. -/
theorem error_page_preview_in_range (title message : GoString) (env : Env) (line : GoString)
    (hread : env.readString = some line)
    (hpath : findSubmatch requestPattern line = none
      ∨ ∃ m, findSubmatch requestPattern line = some m ∧ env.readFile (resolvedPath m) = none) :
    (buildHTML title message).length = 91 + 2 * title.length + message.length
    ∧ DefaultContentPreviewLength ≤ (buildHTML title message).length
    ∧ Event.panicked ∉ handleConnection env
    ∧ ∃ version msg,
        (msg = ascii "Page not found" ∨ msg = ascii "File not found")
        ∧ DefaultContentPreviewLength ≤ (buildHTML (ascii "404 Not Found") msg).length
        ∧ writes (handleConnection env)
            = [buildHTTPHeader 404 version (ascii "text/html") ++ CRLF
                ++ buildHTML (ascii "404 Not Found") msg] := by
  have hlen : ∀ t m : GoString, DefaultContentPreviewLength ≤ (buildHTML t m).length := by
    intro t m
    rw [buildHTML_length, DefaultContentPreviewLength]; omega
  refine ⟨buildHTML_length title message, hlen title message, ?_, ?_⟩
  · rcases hpath with hnone | ⟨m, hm, hfile⟩
    · rw [handleConnection_parse_failure env line hread hnone]
      intro hp
      simp only [List.mem_cons] at hp
      rcases hp with hp | hp | hp
      · exact absurd hp (by simp)
      · exact absurd hp (by simp)
      · exact panicked_not_mem_tail env hp
    · rw [handleConnection_read_failure env line m hread hm hfile]
      intro hp
      simp only [List.mem_cons] at hp
      rcases hp with hp | hp | hp | hp
      · exact absurd hp (by simp)
      · exact absurd hp (by simp)
      · exact absurd hp (by simp)
      · exact panicked_not_mem_tail env hp
  · rcases hpath with hnone | ⟨m, hm, hfile⟩
    · refine ⟨ascii "1.1", ascii "Page not found", Or.inl rfl, hlen _ _, ?_⟩
      rw [handleConnection_parse_failure env line hread hnone]
      simp only [writes, writes_tail]
    · refine ⟨m 4, ascii "File not found", Or.inr rfl, hlen _ _, ?_⟩
      rw [handleConnection_read_failure env line m hread hm hfile]
      simp only [writes, writes_tail]

/-- C18 at the empty title and message and at both 404 paths: the line `POST / HTTP/1.1\r\n`
fails to match, and `GET /missing.html HTTP/1.1\r\n` matches with no such file. -/
theorem error_page_preview_in_range_witness :
    ((buildHTML [] []).length = 91 + 2 * ([] : GoString).length + ([] : GoString).length
      ∧ DefaultContentPreviewLength ≤ (buildHTML [] []).length
      ∧ Event.panicked ∉ handleConnection (Env.mk (some (ascii "POST / HTTP/1.1\r\n"))
          (fun _ => none) false false)
      ∧ ∃ version msg,
          (msg = ascii "Page not found" ∨ msg = ascii "File not found")
          ∧ DefaultContentPreviewLength ≤ (buildHTML (ascii "404 Not Found") msg).length
          ∧ writes (handleConnection (Env.mk (some (ascii "POST / HTTP/1.1\r\n"))
                (fun _ => none) false false))
              = [buildHTTPHeader 404 version (ascii "text/html") ++ CRLF
                  ++ buildHTML (ascii "404 Not Found") msg])
    ∧ Event.panicked ∉ handleConnection (Env.mk (some (ascii "GET /missing.html HTTP/1.1\r\n"))
          (fun _ => none) false false) :=
  ⟨error_page_preview_in_range [] []
      (Env.mk (some (ascii "POST / HTTP/1.1\r\n")) (fun _ => none) false false)
      (ascii "POST / HTTP/1.1\r\n") rfl (Or.inl (Option.isNone_iff_eq_none.1 (by decide))),
    (error_page_preview_in_range [] []
      (Env.mk (some (ascii "GET /missing.html HTTP/1.1\r\n")) (fun _ => none) false false)
      (ascii "GET /missing.html HTTP/1.1\r\n") rfl
      (Or.inr ⟨_, findSubmatch_of_matchAt _ _ _
        (matchAt_requestLine_file (ascii "missing") (ascii "html") 49 49 []
          (by decide) (by decide) rfl rfl), rfl⟩)).2.2.1⟩

end HttpServer
